import Mathlib

/-!
# Verification of the smart-contract risk-detection core

A shallow embedding of the deterministic risk-analysis engine
(`ASTParserService`, the six detectors, `ScoringAlgorithmService`,
`RiskEngineService`) of the analyzed repository, together with proofs
of the specified properties.

Conventions of the embedding:
* JavaScript strings are modelled as `List Char`; the ASCII fragment of
  `toLowerCase` is modelled (all analyzed patterns and keywords are ASCII).
* JavaScript numbers are modelled as `ℚ` (every weight in the fixed table is
  a small decimal; floating-point representation noise is not modelled);
  `Math.round` is `jsRound q = ⌊q + 1/2⌋`, which is exactly the JS
  half-towards-plus-infinity rule.
* The regular expressions of the source are embedded as explicit ASTs and run
  by a backtracking matcher (`reMatch`) that mirrors the JS semantics
  (leftmost match, alternatives in order, greedy quantifiers with
  backtracking, case-insensitive flag, `lastIndex` advancement of `exec`
  with the `g` flag).  Every quantified subexpression of the source's
  regexes repeats a single-character class, which the AST makes syntactic.
* A thrown JS exception is an `Except.error`; all other code paths are total
  functions, mirroring the fact that they cannot throw.
-/

/- The rational operations of Batteries are `@[irreducible]` by default;
the concrete-evaluation theorems below need them to reduce. -/
set_option allowUnsafeReducibility true in
attribute [semireducible] Rat.mul Rat.add Rat.inv Rat.sub

/- The witnesses and counterexamples evaluate the whole engine on concrete
sources inside the kernel. -/
set_option maxRecDepth 2000000
set_option maxHeartbeats 8000000

namespace Contracter

/-! ## Characters and strings -/

/-- ASCII lower-casing, the fragment of JS `toLowerCase` exercised by the
keyword and identifier comparisons of the source. -/
def lowerCh (c : Char) : Char :=
  if 'A' ≤ c ∧ c ≤ 'Z' then Char.ofNat (c.toNat + 32) else c

/-- `\w` of JS regexes: ASCII letters, digits and underscore. -/
def wordCh (c : Char) : Bool :=
  ('a' ≤ c && c ≤ 'z') || ('A' ≤ c && c ≤ 'Z') || ('0' ≤ c && c ≤ '9') || c = '_'

/-- `\s` of JS regexes (the ASCII whitespace characters). -/
def spaceCh (c : Char) : Bool :=
  c = ' ' || c = '\t' || c = '\n' || c = '\r' || c = Char.ofNat 11 || c = Char.ofNat 12

/-- `\d` of JS regexes. -/
def digitCh (c : Char) : Bool := '0' ≤ c && c ≤ '9'

/-- `.` of JS regexes: any character except a line terminator. -/
def dotCh (c : Char) : Bool := c ≠ '\n' && c ≠ '\r'

/-- JS `String.prototype.toLowerCase` (ASCII fragment). -/
def lowerStr (s : List Char) : List Char := s.map lowerCh

/-- Does `s` start with `pre` (character-wise equality)? -/
def startsWithStr : List Char → List Char → Bool
  | _, [] => true
  | [], _ :: _ => false
  | c :: s, p :: pre => c = p && startsWithStr s pre

/-- JS `String.prototype.includes` (case-sensitive substring search). -/
def containsStr : List Char → List Char → Bool
  | s, sub => if startsWithStr s sub then true else
      match s with
      | [] => false
      | _ :: rest => containsStr rest sub

/-- JS `String.prototype.trim` (over the modelled whitespace set). -/
def trimStr (s : List Char) : List Char :=
  ((s.dropWhile spaceCh).reverse.dropWhile spaceCh).reverse

/-- `split('\n')` of JS on the embedded strings. -/
def splitNl (s : List Char) : List (List Char) :=
  s.foldr (fun c acc =>
    if c = '\n' then [] :: acc
    else match acc with
      | h :: t => (c :: h) :: t
      | [] => [[c]]) [[]]

/-- Joining with `'\n'`, the inverse direction of `splitNl`. -/
def joinNl (ls : List (List Char)) : List Char :=
  match ls with
  | [] => []
  | [l] => l
  | l :: rest => l ++ '\n' :: joinNl rest

/-- Joining with an arbitrary separator (`Array.prototype.join`). -/
def joinSep (sep : List Char) (ls : List (List Char)) : List Char :=
  match ls with
  | [] => []
  | [l] => l
  | l :: rest => l ++ sep ++ joinSep sep rest

/-- `split(/\s+/)` of JS: pieces between maximal whitespace runs, with an
empty leading (trailing) piece when the string starts (ends) with
whitespace.  The boolean accumulator component records whether the
character to the right of the current one was whitespace, so that a run
splits only once. -/
def splitWs (s : List Char) : List (List Char) :=
  (s.foldr (fun c st =>
    if spaceCh c then
      if st.1 then st else (true, [] :: st.2)
    else
      (false, match st.2 with
        | h :: t => (c :: h) :: t
        | [] => [[c]])) ((false, [[]]) : Bool × List (List Char))).2

/-- Number of `'\n'` characters in `s`. -/
def countNl (s : List Char) : Nat := (s.filter (· = '\n')).length

/-- `Math.min` on naturals, written with an explicit comparison so that the
kernel evaluates it. -/
def nMin (a b : Nat) : Nat := if a ≤ b then a else b

/-- `Math.max` on naturals. -/
def nMax (a b : Nat) : Nat := if a ≤ b then b else a

/-- `Math.min` on integers. -/
def iMin (a b : Int) : Int := if a ≤ b then a else b

/-- `Math.max` on integers. -/
def iMax (a b : Int) : Int := if a ≤ b then b else a

/-- `Math.min` on the rational number model. -/
def qMin (a b : ℚ) : ℚ := if a ≤ b then a else b

/-- JS `String.prototype.slice` / `Array.prototype.slice` with already
clamped natural bounds. -/
def sliceN (s : List α) (a b : Nat) : List α := (s.take b).drop a

/-- Clamp an integer index into `[0, len]`. -/
def clampIdx (len : Nat) (i : Int) : Nat := (iMin (iMax i 0) (len : Int)).toNat

/-- JS `String.prototype.substring`: clamps both indices to the string and
swaps them when given in descending order. -/
def jsSubstring (s : List Char) (a b : Int) : List Char :=
  let a' := clampIdx s.length a
  let b' := clampIdx s.length b
  if a' ≤ b' then sliceN s a' b' else sliceN s b' a'

/-- JS `String.prototype.indexOf(c, from)` restricted to one character:
the absolute index of the first occurrence at or after `from`, `-1` if none. -/
def idxOfChFrom (s : List Char) (c : Char) (start : Nat) : Int :=
  match (s.drop start).findIdx? (· = c) with
  | some i => (start + i : Nat)
  | none => -1

/-- JS `Array.prototype.indexOf`: index of the first element equal to `a`,
`-1` if none. -/
def jsIndexOf [DecidableEq α] (l : List α) (a : α) : Int :=
  match l.findIdx? (· = a) with
  | some i => (i : Nat)
  | none => -1

/-- JS `Array.prototype.findIndex`: `-1` when no element satisfies `p`. -/
def jsFindIndex (p : α → Bool) (l : List α) : Int :=
  match l.findIdx? p with
  | some i => (i : Nat)
  | none => -1

/-- JS `Math.round` on the rational model: halves round towards `+∞`. -/
def jsRound (q : ℚ) : ℤ := ⌊q + 1 / 2⌋

/-! ## A backtracking regex matcher

The regexes of the source are embedded as `RE` sequences.  Quantifiers
(`*`, `+`) only ever repeat a single-character class in the source's
patterns, so the AST offers exactly that.  `opt`/`alt`/`group` carry
subsequences; matching is continuation-passing with full backtracking,
alternatives tried left to right and quantifiers greedy, which is the JS
semantics.  The `fuel` argument only bounds the depth of the descent into
the AST (every recursive call either unwraps one AST constructor or hands
the strictly shorter remainder of the sequence to its continuation), so
`2 * size + 2` fuel can never be exhausted; it makes the recursion
structural and hence kernel-reducible. -/

/-- Embedded regex element. -/
inductive RE where
  /-- a single character of a class -/
  | cls (p : Char → Bool)
  /-- a literal string (compared lower-cased when the `i` flag is set) -/
  | lit (s : List Char)
  /-- greedy `*` over a character class -/
  | starCls (p : Char → Bool)
  /-- greedy `+` over a character class -/
  | plusCls (p : Char → Bool)
  /-- greedy optional subsequence `(?: ... )?` -/
  | opt (es : List RE)
  /-- alternation, alternatives in source order -/
  | alt (alts : List (List RE))
  /-- capturing group `idx` -/
  | group (idx : Nat) (es : List RE)

/-- Captures: `(index, start, end)` triples, innermost first. -/
abbrev Caps := List (Nat × Nat × Nat)

/-- Size of an `RE` tree, bounding the matcher's descent depth. -/
def reSize : RE → Nat
  | .cls _ => 1
  | .lit _ => 1
  | .starCls _ => 1
  | .plusCls _ => 1
  | .opt es => 1 + reSizeL es
  | .alt alts => 1 + reSizeA alts
  | .group _ es => 1 + reSizeL es
where
  reSizeL : List RE → Nat
    | [] => 0
    | e :: es => reSize e + reSizeL es
  reSizeA : List (List RE) → Nat
    | [] => 0
    | a :: as => reSizeL a + reSizeA as

/-- Strip the literal `pat` from the front of the suffix `s`
(lower-casing both sides when `ci`); the remaining suffix on success. -/
def litStrip (ci : Bool) : List Char → List Char → Option (List Char)
  | s, [] => some s
  | [], _ :: _ => none
  | c :: s, p :: ps =>
    if (if ci then lowerCh c = lowerCh p else c = p) then litStrip ci s ps
    else none

/-- Greedy backtracking over a class run of length `j` at the front of
`suffix`: try consuming `j, j-1, …, 0` characters, longest first.  The
continuation receives the remaining suffix and the absolute position. -/
def tryStar (k : List Char → Nat → Option (Nat × Caps)) (suffix : List Char)
    (pos : Nat) : Nat → Option (Nat × Caps)
  | 0 => k suffix pos
  | j + 1 =>
    (k (suffix.drop (j + 1)) (pos + (j + 1))).orElse fun _ =>
      tryStar k suffix pos j

/-- The backtracking matcher: match the sequence `es` against `suffix`
(the code from absolute position `pos` on), then hand the remaining
suffix, end position and captures to the continuation `k`.  Returns the
first success in JS backtracking order: alternatives left to right,
quantifiers greedy, full backtracking across the sequence.  The `fuel`
argument only bounds the depth of the descent into the AST (every
recursive call either unwraps one AST constructor or hands the strictly
smaller remainder of the sequence to its continuation), so `rexFuel` can
never be exhausted; it makes the recursion structural and hence
kernel-reducible. -/
def reMatch (ci : Bool) :
    Nat → List RE → List Char → Nat → Caps →
    (List Char → Nat → Caps → Option (Nat × Caps)) → Option (Nat × Caps)
  | 0, _, _, _, _, _ => none
  | _ + 1, [], suffix, pos, caps, k => k suffix pos caps
  | fuel + 1, e :: rest, suffix, pos, caps, k =>
    match e with
    | .cls p =>
      match suffix with
      | c :: suffix2 =>
        if p c then reMatch ci fuel rest suffix2 (pos + 1) caps k else none
      | [] => none
    | .lit l =>
      match litStrip ci suffix l with
      | some suffix2 => reMatch ci fuel rest suffix2 (pos + l.length) caps k
      | none => none
    | .starCls p =>
      tryStar (fun suffix2 pos2 => reMatch ci fuel rest suffix2 pos2 caps k)
        suffix pos (suffix.takeWhile p).length
    | .plusCls p =>
      match suffix with
      | c :: suffix2 =>
        if p c then
          tryStar (fun suffix3 pos3 => reMatch ci fuel rest suffix3 pos3 caps k)
            suffix2 (pos + 1) (suffix2.takeWhile p).length
        else none
      | [] => none
    | .opt es =>
      (reMatch ci fuel (es ++ rest) suffix pos caps k).orElse fun _ =>
        reMatch ci fuel rest suffix pos caps k
    | .alt [] => none
    | .alt (a :: as) =>
      (reMatch ci fuel (a ++ rest) suffix pos caps k).orElse fun _ =>
        reMatch ci fuel (.alt as :: rest) suffix pos caps k
    | .group i es =>
      reMatch ci fuel es suffix pos caps fun suffix2 pos2 caps2 =>
        reMatch ci fuel rest suffix2 pos2 ((i, pos, pos2) :: caps2) k

/-- A compiled regex: element sequence plus the `i` flag and a multiline
`^` anchor flag. -/
structure Rex where
  elems : List RE
  ci : Bool
  anchored : Bool

/-- Fuel that the matcher can never exhaust on `r` (see `reMatch`). -/
def rexFuel (r : Rex) : Nat := 2 * reSize.reSizeL r.elems + 2

/-- Attempt a match of `r` exactly at absolute position `pos`, where
`suffix` is the code from `pos` on; `(end, captures)` on success. -/
def matchAt (r : Rex) (suffix : List Char) (pos : Nat) : Option (Nat × Caps) :=
  reMatch r.ci (rexFuel r) r.elems suffix pos [] fun _ pos2 caps2 =>
    some (pos2, caps2)

/-- Is a position a valid start for a `^`-anchored multiline match, given
the character directly before it (`none` at the start of input)? -/
def anchorOkAt (prev : Option Char) : Bool :=
  match prev with
  | none => true
  | some c => c = '\n' || c = '\r'

/-- Scan left to right for the first match at or after `pos` (the JS
leftmost-match rule), walking the suffix. -/
def findFromGo (r : Rex) : List Char → Nat → Option Char →
    Option (Nat × Nat × Caps)
  | suffix, pos, prev =>
    if r.anchored && !anchorOkAt prev then
      match suffix with
      | [] => none
      | c :: rest => findFromGo r rest (pos + 1) (some c)
    else
      match matchAt r suffix pos with
      | some (e, caps) => some (pos, e, caps)
      | none =>
        match suffix with
        | [] => none
        | c :: rest => findFromGo r rest (pos + 1) (some c)

/-- First match of `r` in `s` starting at or after `start`. -/
def findFrom (r : Rex) (s : List Char) (start : Nat) :
    Option (Nat × Nat × Caps) :=
  findFromGo r (s.drop start) start
    (if start = 0 then none else s[start - 1]?)

/-- One regex match: absolute start, end, and captures. -/
structure RMatch where
  start : Nat
  stop : Nat
  caps : Caps
deriving DecidableEq

/-- The `while ((m = re.exec(code)) !== null)` loop of a `g`-flagged regex:
repeated leftmost search from `lastIndex`, which advances to each match's
end.  Every regex of the source ends in a mandatory character, so matches
are nonempty and at most `s.length` of them exist; the fuel of
`s.length + 1` can therefore never be exhausted (the `nMax` guard that
makes the recursion well-defined never binds). -/
def execLoop (r : Rex) (s : List Char) : Nat → Nat → List RMatch
  | 0, _ => []
  | fuel + 1, last =>
    match findFrom r s last with
    | some (st, en, caps) => ⟨st, en, caps⟩ :: execLoop r s fuel (nMax en (st + 1))
    | none => []

/-- All matches of a global regex over `s`, in order. -/
def execAll (r : Rex) (s : List Char) : List RMatch :=
  execLoop r s (s.length + 1) 0

/-- Value of capture group `i`: the matched slice, `none` when the group
did not participate in the match. -/
def capStr (s : List Char) (caps : Caps) (i : Nat) : Option (List Char) :=
  match caps.find? (fun c => c.1 = i) with
  | some (_, st, en) => some (sliceN s st en)
  | none => none

/-- `re.test(s)` for a non-global regex. -/
def reTest (r : Rex) (s : List Char) : Bool :=
  (findFrom r s 0).isSome

/-! ## The concrete regexes of `ASTParserService` and the detectors -/

/-- A case-insensitive unanchored literal regex such as `/mint/i`. -/
def litRex (s : String) : Rex := ⟨[.lit s.toList], true, false⟩

/-- `[^)]` -/
def notParenCh (c : Char) : Bool := c ≠ ')'

/-- `/function\s+(\w+)\s*\([^)]*\)\s*(public|external|internal|private)?\s*(view|pure|payable)?\s*([\w\s,]*)\s*(?:returns\s*\([^)]*\))?\s*\{/gi` -/
def functionRE : Rex where
  elems := [
    .lit "function".toList, .plusCls spaceCh,
    .group 1 [.plusCls wordCh], .starCls spaceCh,
    .lit "(".toList, .starCls notParenCh, .lit ")".toList,
    .starCls spaceCh,
    .opt [.group 2 [.alt [[.lit "public".toList], [.lit "external".toList],
      [.lit "internal".toList], [.lit "private".toList]]]],
    .starCls spaceCh,
    .opt [.group 3 [.alt [[.lit "view".toList], [.lit "pure".toList],
      [.lit "payable".toList]]]],
    .starCls spaceCh,
    .group 4 [.starCls fun c => wordCh c || spaceCh c || c = ','],
    .starCls spaceCh,
    .opt [.lit "returns".toList, .starCls spaceCh, .lit "(".toList,
      .starCls notParenCh, .lit ")".toList],
    .starCls spaceCh,
    .lit "\x7b".toList]
  ci := true
  anchored := false

/-- `/modifier\s+(\w+)\s*(?:\([^)]*\))?\s*\{/gi` -/
def modifierRE : Rex where
  elems := [
    .lit "modifier".toList, .plusCls spaceCh,
    .group 1 [.plusCls wordCh], .starCls spaceCh,
    .opt [.lit "(".toList, .starCls notParenCh, .lit ")".toList],
    .starCls spaceCh, .lit "\x7b".toList]
  ci := true
  anchored := false

/-- `/^\s*(uint\d*|int\d*|address|bool|string|bytes\d*)\s+(public|private|internal)?\s*(constant)?\s+(\w+)\s*(?:=|;)/gim` -/
def varScalarRE : Rex where
  elems := [
    .starCls spaceCh,
    .group 1 [.alt [[.lit "uint".toList, .starCls digitCh],
      [.lit "int".toList, .starCls digitCh], [.lit "address".toList],
      [.lit "bool".toList], [.lit "string".toList],
      [.lit "bytes".toList, .starCls digitCh]]],
    .plusCls spaceCh,
    .opt [.group 2 [.alt [[.lit "public".toList], [.lit "private".toList],
      [.lit "internal".toList]]]],
    .starCls spaceCh,
    .opt [.group 3 [.lit "constant".toList]],
    .plusCls spaceCh,
    .group 4 [.plusCls wordCh],
    .starCls spaceCh,
    .alt [[.lit "=".toList], [.lit ";".toList]]]
  ci := true
  anchored := true

/-- `/^\s*mapping\s*\([^)]+\)\s+(public|private|internal)?\s+(\w+)\s*;/gim` -/
def varMappingRE : Rex where
  elems := [
    .starCls spaceCh, .lit "mapping".toList, .starCls spaceCh,
    .lit "(".toList, .plusCls notParenCh, .lit ")".toList,
    .plusCls spaceCh,
    .opt [.group 1 [.alt [[.lit "public".toList], [.lit "private".toList],
      [.lit "internal".toList]]]],
    .plusCls spaceCh,
    .group 2 [.plusCls wordCh],
    .starCls spaceCh, .lit ";".toList]
  ci := true
  anchored := true

/-- `/\.call\{|\.call\(|\.staticcall\(|\.callcode\(/` (case-sensitive) -/
def callPatternRE : Rex where
  elems := [.alt [[.lit ".call\x7b".toList], [.lit ".call(".toList],
    [.lit ".staticcall(".toList], [.lit ".callcode(".toList]]]
  ci := false
  anchored := false

/-- `/require\(.*success|if\s*\(\s*success|success\s*==\s*true/` -/
def checkedCallRE : Rex where
  elems := [.alt [
    [.lit "require(".toList, .starCls dotCh, .lit "success".toList],
    [.lit "if".toList, .starCls spaceCh, .lit "(".toList, .starCls spaceCh,
      .lit "success".toList],
    [.lit "success".toList, .starCls spaceCh, .lit "==".toList,
      .starCls spaceCh, .lit "true".toList]]]
  ci := false
  anchored := false

/-- `/\(bool\s+success/` -/
def boolSuccessRE : Rex where
  elems := [.lit "(bool".toList, .plusCls spaceCh, .lit "success".toList]
  ci := false
  anchored := false

/-- `/balances?\[.*\]\s*=/` -/
def balancesAssignRE : Rex where
  elems := [.lit "balance".toList, .opt [.lit "s".toList], .lit "[".toList,
    .starCls dotCh, .lit "]".toList, .starCls spaceCh, .lit "=".toList]
  ci := false
  anchored := false

/-- `/_balances?\[.*\]\s*=/` -/
def underBalancesAssignRE : Rex where
  elems := [.lit "_balance".toList, .opt [.lit "s".toList], .lit "[".toList,
    .starCls dotCh, .lit "]".toList, .starCls spaceCh, .lit "=".toList]
  ci := false
  anchored := false

/-- `/setMax.*Amount|setMaxTx/i` -/
def setMaxRE : Rex where
  elems := [.alt [[.lit "setMax".toList, .starCls dotCh, .lit "Amount".toList],
    [.lit "setMaxTx".toList]]]
  ci := true
  anchored := false

/-! ## The structural data model (`base-detector.ts` interfaces) -/

/-- `FunctionInfo` of `base-detector.ts`. -/
structure FunctionInfo where
  name : List Char
  startLine : Nat
  endLine : Nat
  visibility : List Char
  modifiers : List (List Char)
  body : List Char
  fullSignature : List Char
deriving DecidableEq

/-- `ModifierInfo` of `base-detector.ts`. -/
structure ModifierInfo where
  name : List Char
  lineNumber : Nat
  body : List Char
deriving DecidableEq

/-- `VariableInfo` of `base-detector.ts`. -/
structure VariableInfo where
  name : List Char
  type : List Char
  visibility : List Char
  lineNumber : Nat
  isConstant : Bool
deriving DecidableEq

/-- `DetectionContext` of `base-detector.ts`. -/
structure DetectionContext where
  code : List Char
  lines : List (List Char)
  functions : List FunctionInfo
  modifiers : List ModifierInfo
  «variables» : List VariableInfo
deriving DecidableEq

/-! ## Risk types, severities and the fixed weight table (`risk.types.ts`) -/

/-- The closed enumeration `RiskType`. -/
inductive RiskType where
  | UNLIMITED_MINTING | OWNER_RESTRICTED_MINTING
  | WITHDRAW_FUNCTION | EMERGENCY_WITHDRAWAL | BALANCE_MANIPULATION
  | CENTRALIZED_OWNERSHIP | PAUSABLE_CONTRACT | OWNERSHIP_TRANSFER
  | DELEGATECALL_USAGE | UUPS_PROXY | TRANSPARENT_PROXY
  | SELFDESTRUCT | TX_ORIGIN | UNCHECKED_CALL
  | ADJUSTABLE_FEES | BLACKLIST_MODIFICATION | MAX_TX_LIMIT
  | WHITELIST_MODIFICATION
deriving DecidableEq

/-- The closed enumeration `Severity`. -/
inductive Severity where
  | LOW | MEDIUM | HIGH | CRITICAL
deriving DecidableEq

/-- The closed enumeration `RiskClassification`. -/
inductive RiskClassification where
  | VERY_LOW | LOW | MODERATE | HIGH | VERY_HIGH
deriving DecidableEq

/-- The fixed, closed `RISK_WEIGHTS` table: `(weight, severity)` per type. -/
def RISK_WEIGHTS : RiskType → ℚ × Severity
  | .UNLIMITED_MINTING => (3, .CRITICAL)
  | .OWNER_RESTRICTED_MINTING => (2, .HIGH)
  | .WITHDRAW_FUNCTION => (3, .CRITICAL)
  | .EMERGENCY_WITHDRAWAL => (35 / 10, .CRITICAL)
  | .BALANCE_MANIPULATION => (25 / 10, .HIGH)
  | .CENTRALIZED_OWNERSHIP => (2, .HIGH)
  | .PAUSABLE_CONTRACT => (15 / 10, .MEDIUM)
  | .OWNERSHIP_TRANSFER => (1, .MEDIUM)
  | .DELEGATECALL_USAGE => (25 / 10, .HIGH)
  | .UUPS_PROXY => (15 / 10, .MEDIUM)
  | .TRANSPARENT_PROXY => (15 / 10, .MEDIUM)
  | .SELFDESTRUCT => (4, .CRITICAL)
  | .TX_ORIGIN => (2, .HIGH)
  | .UNCHECKED_CALL => (15 / 10, .MEDIUM)
  | .ADJUSTABLE_FEES => (2, .HIGH)
  | .BLACKLIST_MODIFICATION => (15 / 10, .MEDIUM)
  | .MAX_TX_LIMIT => (5 / 10, .LOW)
  | .WHITELIST_MODIFICATION => (1, .MEDIUM)

/-- `RiskFinding` of `risk.types.ts`.  `line_number` is an `Int` because the
detectors can store `lineIndex + 1` where `findIndex` returned `-1`. -/
structure RiskFinding where
  type : RiskType
  severity : Severity
  weight : ℚ
  code_snippet : List Char
  line_number : Int
  machine_reason : List Char
  function_name : Option (List Char)
  modifier_name : Option (List Char)
deriving DecidableEq

/-- The detection metadata of `RiskDetectionResult`. -/
structure DetectionMetadata where
  total_functions : Nat
  successfully_parsed : Nat
  patterns_checked : Nat
  patterns_matched : Nat
deriving DecidableEq

/-- `RiskDetectionResult` of `risk.types.ts`. -/
structure RiskDetectionResult where
  findings : List RiskFinding
  risk_score : ℚ
  classification : RiskClassification
  confidence : ℚ
  metadata : DetectionMetadata
deriving DecidableEq

/-- `classifyRiskScore` of `risk.types.ts`. -/
def classifyRiskScore (score : ℚ) : RiskClassification :=
  if score ≤ 2 then .VERY_LOW
  else if score ≤ 4 then .LOW
  else if score ≤ 6 then .MODERATE
  else if score ≤ 8 then .HIGH
  else .VERY_HIGH

/-! ## `ASTParserService` -/

namespace ASTParserService

/-- The brace-depth loop of `findMatchingBrace`, run on the suffix of the
code starting at absolute position `index`.  Mirrors
`while (index < code.length && depth > 0) { ... }`; returns the final
`(depth, index)` pair. -/
def fmbGo : List Char → Nat → Nat → Nat × Nat
  | [], depth, index => (depth, index)
  | c :: rest, depth, index =>
    if depth = 0 then (depth, index)
    else fmbGo rest
      (if c = '{' then depth + 1 else if c = '}' then depth - 1 else depth)
      (index + 1)

/-- The `(depth, index)` state at which the scan of `findMatchingBrace`
starting after `openIndex` exits. -/
def fmbScan (code : List Char) (openIndex : Int) : Nat × Nat :=
  fmbGo (code.drop (openIndex + 1).toNat) 1 (openIndex + 1).toNat

/-- `findMatchingBrace` of `ast-parser.service.ts`: the index of the brace
closing the one at `openIndex`, or `code.length` when the text ends before
the depth returns to zero. -/
def findMatchingBrace (code : List Char) (openIndex : Int) : Nat :=
  let r := fmbScan code openIndex
  if r.1 = 0 then r.2 - 1 else code.length

/-- Reserved tokens dropped from the captured modifier string. -/
def reservedModifierTokens : List (List Char) :=
  ["returns".toList, "return".toList, "\x7b".toList]

/-- Build one `FunctionInfo` from a match of `functionRE`, mirroring the
body of the `while` loop of `extractFunctions`. -/
def functionOfMatch (code : List Char) (lines : List (List Char)) (m : RMatch) :
    FunctionInfo :=
  let functionName := (capStr code m.caps 1).getD []
  let visibility :=
    match capStr code m.caps 2 with
    | some v => if v.isEmpty then "public".toList else v
    | none => "public".toList
  let startLine := countNl (code.take m.start) + 1
  let modifiersStr := (capStr code m.caps 4).getD []
  let modifiers := (splitWs modifiersStr).filter fun t =>
    !t.isEmpty && !(reservedModifierTokens.contains t)
  let bodyStart := idxOfChFrom code '{' m.start
  let bodyEnd := findMatchingBrace code bodyStart
  let body := jsSubstring code (bodyStart + 1) bodyEnd
  let endLine := countNl (code.take bodyEnd) + 1
  let fullSignature :=
    trimStr (joinNl (sliceN lines (startLine - 1) (nMin (startLine + 2) lines.length)))
  { name := functionName, startLine := startLine, endLine := endLine,
    visibility := visibility, modifiers := modifiers, body := body,
    fullSignature := fullSignature }

/-- `extractFunctions` of `ast-parser.service.ts`. -/
def extractFunctions (code : List Char) (lines : List (List Char)) :
    List FunctionInfo :=
  (execAll functionRE code).map (functionOfMatch code lines)

/-- `extractModifiers` of `ast-parser.service.ts`. -/
def extractModifiers (code : List Char) : List ModifierInfo :=
  (execAll modifierRE code).map fun m =>
    let modifierName := (capStr code m.caps 1).getD []
    let lineNumber := countNl (code.take m.start) + 1
    let bodyStart := idxOfChFrom code '{' m.start
    let bodyEnd := findMatchingBrace code bodyStart
    let body := jsSubstring code (bodyStart + 1) bodyEnd
    { name := modifierName, lineNumber := lineNumber, body := body }

/-- Build one `VariableInfo` from a match of either variable pattern,
mirroring the `match[0].includes('mapping')` branch of `extractVariables`. -/
def variableOfMatch (code : List Char) (m : RMatch) : VariableInfo :=
  let lineNumber := countNl (code.take m.start) + 1
  let matched := sliceN code m.start m.stop
  if containsStr matched "mapping".toList then
    { name := (capStr code m.caps 2).getD [],
      type := "mapping".toList,
      visibility :=
        (match capStr code m.caps 1 with
         | some v => if v.isEmpty then "internal".toList else v
         | none => "internal".toList),
      lineNumber := lineNumber, isConstant := false }
  else
    { name := (capStr code m.caps 4).getD [],
      type := (capStr code m.caps 1).getD [],
      visibility :=
        (match capStr code m.caps 2 with
         | some v => if v.isEmpty then "internal".toList else v
         | none => "internal".toList),
      lineNumber := lineNumber,
      isConstant := capStr code m.caps 3 = some "constant".toList }

/-- `extractVariables` of `ast-parser.service.ts`: all matches of the scalar
pattern, then all matches of the mapping pattern. -/
def extractVariables (code : List Char) : List VariableInfo :=
  ((execAll varScalarRE code) ++ (execAll varMappingRE code)).map
    (variableOfMatch code)

/-- `parse` of `ast-parser.service.ts`. -/
def parse (code : List Char) : DetectionContext :=
  let lines := splitNl code
  { code := code, lines := lines,
    functions := extractFunctions code lines,
    modifiers := extractModifiers code,
    «variables» := extractVariables code }

/-- `isValidSolidity`: the advisory supported-source check. -/
def isValidSolidity (code : List Char) : Bool :=
  ["pragma solidity".toList, "contract ".toList,
   "interface ".toList, "library ".toList].any fun kw =>
    containsStr (lowerStr code) (lowerStr kw)

end ASTParserService

/-! ## `BaseDetector` helpers -/

namespace BaseDetector

/-- `cleanCodeSnippet`: trim every line, drop blank lines, re-join, cap at
500 characters. -/
def cleanCodeSnippet (snippet : List Char) : List Char :=
  (joinNl (((splitNl snippet).map trimStr).filter fun l => !l.isEmpty)).take 500

/-- `createFinding`: the single construction point of findings; severity and
weight always come from the fixed `RISK_WEIGHTS` table. -/
def createFinding (type : RiskType) (codeSnippet : List Char) (lineNumber : Int)
    (machineReason : List Char) (functionName : Option (List Char))
    (modifierName : Option (List Char)) : RiskFinding :=
  { type := type,
    severity := (RISK_WEIGHTS type).2,
    weight := (RISK_WEIGHTS type).1,
    code_snippet := cleanCodeSnippet codeSnippet,
    line_number := lineNumber,
    machine_reason := machineReason,
    function_name := functionName,
    modifier_name := modifierName }

/-- `hasModifier`: some attached modifier name contains the looked-up name,
case-insensitively. -/
def hasModifier (func : FunctionInfo) (modifierName : List Char) : Bool :=
  func.modifiers.any fun m => containsStr (lowerStr m) (lowerStr modifierName)

/-- `extractCodeSnippet`: `contextLines` of context on each side of
`startLine` (a 0-based line index that may be `-1` after a failed
`findIndex`). -/
def extractCodeSnippet (lines : List (List Char)) (startLine : Int)
    (contextLines : Int) : List Char :=
  let start := clampIdx lines.length (startLine - contextLines)
  let stop := clampIdx lines.length (startLine + contextLines + 1)
  trimStr (joinNl (sliceN lines start stop))

/-- `findFunction`: first function whose name equals `name`
case-insensitively. -/
def findFunction (ctx : DetectionContext) (name : List Char) :
    Option FunctionInfo :=
  ctx.functions.find? fun f => lowerStr f.name = lowerStr name

/-- `findFunctionsMatching`: the functions whose name the regex accepts. -/
def findFunctionsMatching (ctx : DetectionContext) (r : Rex) :
    List FunctionInfo :=
  ctx.functions.filter fun f => reTest r f.name

/-- `hasVariable`: a state variable with this name, case-insensitively. -/
def hasVariable (ctx : DetectionContext) (name : List Char) : Bool :=
  ctx.variables.any fun v => lowerStr v.name = lowerStr name

/-- `hasConstant`: a `constant`-flagged state variable with this name. -/
def hasConstant (ctx : DetectionContext) (name : List Char) : Bool :=
  ctx.variables.any fun v => lowerStr v.name = lowerStr name && v.isConstant

/-- The `a?.b || c` JS idiom on strings: the fallback is used when the
option is absent (or the string falsy, i.e. empty). -/
def jsOrStr (o : Option (List Char)) (d : List Char) : List Char :=
  match o with
  | some v => if v.isEmpty then d else v
  | none => d

/-- The `a?.b || c` JS idiom on line numbers; `0` is falsy in JS. -/
def jsOrNat (o : Option Nat) (d : Nat) : Nat :=
  match o with
  | some v => if v = 0 then d else v
  | none => d

end BaseDetector

/-! ## The six detectors -/

namespace MintingDetector

open BaseDetector

/-- `checkUnlimitedMinting` (CRITICAL): mint function with neither a supply
cap variable nor an in-body supply check. -/
def checkUnlimitedMinting (ctx : DetectionContext) (func : FunctionInfo) :
    Option RiskFinding :=
  let hasSupplyCap := hasConstant ctx "MAX_SUPPLY".toList ||
    hasConstant ctx "CAP".toList ||
    hasConstant ctx "TOTAL_SUPPLY".toList ||
    hasVariable ctx "maxSupply".toList ||
    hasVariable ctx "cap".toList
  let hasSupplyCheck := containsStr func.body "totalSupply".toList &&
    (containsStr func.body "require".toList || containsStr func.body "if".toList)
  if !hasSupplyCap && !hasSupplyCheck then
    some (createFinding .UNLIMITED_MINTING func.fullSignature func.startLine
      "Mint function exists without MAX_SUPPLY constant or supply check. Owner can mint unlimited tokens.".toList
      (some func.name) none)
  else none

/-- `checkOwnerRestrictedMinting` (HIGH): mint function gated by an
owner-style modifier or an inline sender check. -/
def checkOwnerRestrictedMinting (_ctx : DetectionContext) (func : FunctionInfo) :
    Option RiskFinding :=
  let hasOwnerModifier := hasModifier func "onlyOwner".toList ||
    hasModifier func "onlyRole".toList || hasModifier func "onlyMinter".toList
  let hasOwnerCheck := containsStr func.body "msg.sender".toList &&
    (containsStr func.body "owner".toList || containsStr func.body "_owner".toList)
  if hasOwnerModifier || hasOwnerCheck then
    some (createFinding .OWNER_RESTRICTED_MINTING func.fullSignature func.startLine
      "Minting is restricted to owner/privileged address. Centralized control over token supply.".toList
      (some func.name) (some (joinSep ", ".toList func.modifiers)))
  else none

/-- `MintingDetector.detect`. -/
def detect (ctx : DetectionContext) : List RiskFinding :=
  (findFunctionsMatching ctx (litRex "mint")).flatMap fun func =>
    (checkUnlimitedMinting ctx func).toList ++
    (checkOwnerRestrictedMinting ctx func).toList

end MintingDetector

namespace FundControlDetector

open BaseDetector

/-- The five withdrawal name patterns. -/
def withdrawPatterns : List Rex :=
  [litRex "withdraw", litRex "claim", litRex "rescue", litRex "recover",
   litRex "sweep"]

/-- The ether-transfer test of `detectWithdrawalFunctions`. -/
def transfersEther (func : FunctionInfo) : Bool :=
  containsStr func.body ".transfer(".toList ||
  containsStr func.body ".send(".toList ||
  containsStr func.body ".call\x7bvalue:".toList ||
  containsStr func.body "payable".toList

/-- The token-transfer test of `detectWithdrawalFunctions`. -/
def transfersTokens (func : FunctionInfo) : Bool :=
  containsStr func.body ".transfer(".toList ||
  containsStr func.body "_transfer(".toList ||
  containsStr func.body "safeTransfer".toList

/-- The qualification test of `detectWithdrawalFunctions`: the function
transfers funds (ether or tokens) and carries an `onlyOwner` modifier. -/
def qualifiesWithdrawal (func : FunctionInfo) : Bool :=
  (transfersEther func || transfersTokens func) &&
    hasModifier func "onlyOwner".toList

/-- The finding (if any) emitted for one function inside the per-pattern
loop of `detectWithdrawalFunctions`. -/
def withdrawalFindingFor (func : FunctionInfo) : Option RiskFinding :=
  if qualifiesWithdrawal func then
    some (createFinding .WITHDRAW_FUNCTION func.fullSignature func.startLine
      "Owner-controlled withdrawal function detected. Owner can withdraw user funds at any time.".toList
      (some func.name) (some (joinSep ", ".toList func.modifiers)))
  else none

/-- `detectWithdrawalFunctions` (CRITICAL): one finding per (pattern,
qualifying function) pair, patterns outermost. -/
def detectWithdrawalFunctions (ctx : DetectionContext) : List RiskFinding :=
  withdrawPatterns.flatMap fun p =>
    (findFunctionsMatching ctx p).filterMap withdrawalFindingFor

/-- `detectEmergencyWithdrawal` (CRITICAL). -/
def detectEmergencyWithdrawal (ctx : DetectionContext) : List RiskFinding :=
  (findFunctionsMatching ctx (litRex "emergency")).filterMap fun func =>
    if containsStr func.body "transfer".toList ||
        containsStr func.body "send".toList ||
        containsStr func.body "call\x7bvalue".toList then
      some (createFinding .EMERGENCY_WITHDRAWAL func.fullSignature func.startLine
        "Emergency withdrawal function allows draining all funds without timelock or safeguards.".toList
        (some func.name) (some (joinSep ", ".toList func.modifiers)))
    else none

/-- `detectBalanceManipulation` (HIGH). -/
def detectBalanceManipulation (ctx : DetectionContext) : List RiskFinding :=
  (ctx.functions.filter fun func =>
      (reTest balancesAssignRE func.body || reTest underBalancesAssignRE func.body) &&
      !(func.name = "constructor".toList) &&
      !reTest (litRex "transfer") func.name).filterMap fun func =>
    if hasModifier func "onlyOwner".toList || hasModifier func "onlyRole".toList then
      some (createFinding .BALANCE_MANIPULATION func.fullSignature func.startLine
        "Direct balance manipulation detected. Privileged address can arbitrarily modify user balances.".toList
        (some func.name) (some (joinSep ", ".toList func.modifiers)))
    else none

/-- `FundControlDetector.detect`. -/
def detect (ctx : DetectionContext) : List RiskFinding :=
  detectWithdrawalFunctions ctx ++ detectEmergencyWithdrawal ctx ++
    detectBalanceManipulation ctx

end FundControlDetector

namespace OwnershipDetector

open BaseDetector

/-- The owner-gating test of `detectCentralizedOwnership`. -/
def ownerGated (func : FunctionInfo) : Bool :=
  hasModifier func "onlyOwner".toList || hasModifier func "onlyRole".toList ||
  containsStr func.body "require(msg.sender == owner".toList

/-- `detectCentralizedOwnership` (HIGH): fires once when at least three
functions are owner-gated. -/
def detectCentralizedOwnership (ctx : DetectionContext) : Option RiskFinding :=
  let fns := ctx.functions.filter ownerGated
  if 3 ≤ fns.length then
    match fns.head? with
    | some first =>
      let functionNames := joinSep ", ".toList (fns.map (·.name))
      some (createFinding .CENTRALIZED_OWNERSHIP
        ((toString fns.length).toList ++
          " owner-controlled functions: ".toList ++ functionNames)
        first.startLine
        ("Contract has ".toList ++ (toString fns.length).toList ++
          " owner-only functions, indicating high centralization. Single address controls critical operations.".toList)
        (some functionNames) none)
    | none => none
  else none

/-- `detectPausableContract` (MEDIUM). -/
def detectPausableContract (ctx : DetectionContext) : Option RiskFinding :=
  let pauseFunction := findFunction ctx "pause".toList
  let unpauseFunction := findFunction ctx "unpause".toList
  let hasPausableInheritance := containsStr ctx.code "Pausable".toList ||
    containsStr ctx.code "is Pausable".toList
  let hasWhenNotPaused :=
    ctx.modifiers.any (fun m => m.name = "whenNotPaused".toList) ||
    ctx.functions.any (fun f => hasModifier f "whenNotPaused".toList)
  if pauseFunction.isSome || unpauseFunction.isSome || hasPausableInheritance ||
      hasWhenNotPaused then
    let line := jsOrNat (pauseFunction.map (·.startLine))
      (jsOrNat (unpauseFunction.map (·.startLine)) 1)
    let funcName := jsOrStr (pauseFunction.map (·.name))
      (jsOrStr (unpauseFunction.map (·.name)) "pause mechanism".toList)
    some (createFinding .PAUSABLE_CONTRACT
      (jsOrStr (pauseFunction.map (·.fullSignature))
        "Pausable inheritance detected".toList)
      line
      "Contract can be paused by owner, freezing user operations. No timelock or safeguards detected.".toList
      (some funcName) none)
  else none

/-- `detectOwnershipTransfer` (MEDIUM). -/
def detectOwnershipTransfer (ctx : DetectionContext) : Option RiskFinding :=
  let transferFunction :=
    (findFunction ctx "transferOwnership".toList).orElse fun _ =>
      (findFunctionsMatching ctx (litRex "transferOwnership")).head?
  let has2StepTransfer := containsStr ctx.code "acceptOwnership".toList ||
    containsStr ctx.code "claimOwnership".toList
  match transferFunction with
  | some fn =>
    if !has2StepTransfer then
      some (createFinding .OWNERSHIP_TRANSFER fn.fullSignature fn.startLine
        "Single-step ownership transfer detected. No 2-step transfer protection against accidental transfers.".toList
        (some fn.name) none)
    else none
  | none => none

/-- `OwnershipDetector.detect`. -/
def detect (ctx : DetectionContext) : List RiskFinding :=
  (detectCentralizedOwnership ctx).toList ++
  (detectPausableContract ctx).toList ++
  (detectOwnershipTransfer ctx).toList

end OwnershipDetector

namespace UpgradeDetector

open BaseDetector

/-- `detectDelegatecall` (HIGH): one finding per function whose body
contains the construct. -/
def detectDelegatecall (ctx : DetectionContext) : List RiskFinding :=
  (ctx.functions.filter fun func =>
      containsStr func.body "delegatecall".toList ||
      containsStr func.body ".delegatecall(".toList).map fun func =>
    let lineIndex := jsFindIndex (fun line =>
      containsStr line "delegatecall".toList &&
      (func.startLine : Int) - 1 ≤ jsIndexOf ctx.lines line &&
      jsIndexOf ctx.lines line ≤ (func.endLine : Int) - 1) ctx.lines
    createFinding .DELEGATECALL_USAGE
      (extractCodeSnippet ctx.lines lineIndex 1) (lineIndex + 1)
      "delegatecall allows executing arbitrary code in contract context. Can be used for proxy upgrades or attacks.".toList
      (some func.name) none

/-- `detectUUPSProxy` (MEDIUM). -/
def detectUUPSProxy (ctx : DetectionContext) : Option RiskFinding :=
  let authorizeUpgrade :=
    (findFunction ctx "_authorizeUpgrade".toList).orElse fun _ =>
      (findFunctionsMatching ctx (litRex "_authorizeUpgrade")).head?
  let hasUUPSInheritance := containsStr ctx.code "UUPSUpgradeable".toList ||
    containsStr ctx.code "is UUPSUpgradeable".toList
  if authorizeUpgrade.isSome || hasUUPSInheritance then
    some (createFinding .UUPS_PROXY
      (jsOrStr (authorizeUpgrade.map (·.fullSignature))
        "UUPSUpgradeable inheritance detected".toList)
      (jsOrNat (authorizeUpgrade.map (·.startLine)) 1)
      "UUPS (Universal Upgradeable Proxy Standard) pattern detected. Contract logic can be upgraded, changing behavior.".toList
      (some (jsOrStr (authorizeUpgrade.map (·.name)) "UUPS pattern".toList)) none)
  else none

/-- `detectTransparentProxy` (MEDIUM). -/
def detectTransparentProxy (ctx : DetectionContext) : Option RiskFinding :=
  let hasTransparentInheritance :=
    containsStr ctx.code "TransparentUpgradeableProxy".toList ||
    containsStr ctx.code "is TransparentUpgradeableProxy".toList
  let upgradeToFunction :=
    (findFunction ctx "upgradeTo".toList).orElse fun _ =>
      (findFunctionsMatching ctx (litRex "upgradeTo")).head?
  let hasImplementation := containsStr ctx.code "_implementation".toList ||
    ctx.functions.any (fun f => f.name = "implementation".toList)
  let fallbackFunction := ctx.functions.find? fun f =>
    f.name = "fallback".toList || f.name = "receive".toList
  let hasFallbackDelegatecall :=
    (fallbackFunction.map fun f => containsStr f.body "delegatecall".toList).getD false
  if hasTransparentInheritance || (upgradeToFunction.isSome && hasImplementation) ||
      hasFallbackDelegatecall then
    some (createFinding .TRANSPARENT_PROXY
      (jsOrStr (upgradeToFunction.map (·.fullSignature))
        "Transparent proxy pattern detected".toList)
      (jsOrNat (upgradeToFunction.map (·.startLine)) 1)
      "Transparent proxy pattern detected. Implementation contract can be swapped, completely changing contract behavior.".toList
      (some (jsOrStr (upgradeToFunction.map (·.name)) "Transparent proxy".toList))
      none)
  else none

/-- `UpgradeDetector.detect`. -/
def detect (ctx : DetectionContext) : List RiskFinding :=
  detectDelegatecall ctx ++ (detectUUPSProxy ctx).toList ++
    (detectTransparentProxy ctx).toList

end UpgradeDetector

namespace DangerousFunctionsDetector

open BaseDetector

/-- `detectSelfdestruct` (CRITICAL): a single finding at the first function
containing the construct. -/
def detectSelfdestruct (ctx : DetectionContext) : Option RiskFinding :=
  if !containsStr ctx.code "selfdestruct".toList then none
  else
    match ctx.functions.find? (fun f => containsStr f.body "selfdestruct".toList) with
    | some func =>
      let lineIndex := jsFindIndex (fun line =>
        containsStr line "selfdestruct".toList &&
        (func.startLine : Int) - 1 ≤ jsIndexOf ctx.lines line &&
        jsIndexOf ctx.lines line ≤ (func.endLine : Int) - 1) ctx.lines
      some (createFinding .SELFDESTRUCT
        (extractCodeSnippet ctx.lines lineIndex 1) (lineIndex + 1)
        "selfdestruct allows complete contract destruction, permanently removing code and sending all funds to arbitrary address.".toList
        (some func.name) none)
    | none => none

/-- `detectTxOrigin` (HIGH): one finding per function using `tx.origin`. -/
def detectTxOrigin (ctx : DetectionContext) : List RiskFinding :=
  if !containsStr ctx.code "tx.origin".toList then []
  else
    (ctx.functions.filter fun f => containsStr f.body "tx.origin".toList).map
      fun func =>
        let lineIndex := jsFindIndex (fun line =>
          containsStr line "tx.origin".toList &&
          (func.startLine : Int) - 1 ≤ jsIndexOf ctx.lines line &&
          jsIndexOf ctx.lines line ≤ (func.endLine : Int) - 1) ctx.lines
        createFinding .TX_ORIGIN
          (extractCodeSnippet ctx.lines lineIndex 1) (lineIndex + 1)
          "tx.origin usage detected. Vulnerable to phishing attacks where malicious contracts trick users into authorizing transactions.".toList
          (some func.name) none

/-- Is the low-level call on line `i` of the body followed, within the fixed
three-line window starting at that line, by a success check (or destructured
into a `bool success` on the same line)? -/
def isCheckedAt (bodyLines : List (List Char)) (i : Nat) : Bool :=
  let nextLines := joinNl (sliceN bodyLines i (nMin (i + 3) bodyLines.length))
  reTest checkedCallRE nextLines || reTest boolSuccessRE (bodyLines.getD i [])

/-- The scan of `detectUncheckedCalls` over the body lines: the index of
the first line carrying a low-level call with no success check. -/
def firstUncheckedGo (allLines : List (List Char)) :
    List (List Char) → Nat → Option Nat
  | [], _ => none
  | line :: rest, i =>
    if reTest callPatternRE line && !isCheckedAt allLines i then some i
    else firstUncheckedGo allLines rest (i + 1)

/-- First unchecked call line of a function body. -/
def firstUnchecked (bodyLines : List (List Char)) : Option Nat :=
  firstUncheckedGo bodyLines bodyLines 0

/-- The finding (if any) emitted for one call-containing function by
`detectUncheckedCalls`. -/
def uncheckedCallFinding (ctx : DetectionContext) (func : FunctionInfo) :
    Option RiskFinding :=
  match firstUnchecked (splitNl func.body) with
  | some i =>
    let uncheckedLine := func.startLine + i
    some (createFinding .UNCHECKED_CALL
      (extractCodeSnippet ctx.lines ((uncheckedLine : Int) - 1) 1)
      (uncheckedLine : Nat)
      "Low-level call without return value check. Silent failures can lead to unexpected behavior.".toList
      (some func.name) none)
  | none => none

/-- `detectUncheckedCalls` (MEDIUM). -/
def detectUncheckedCalls (ctx : DetectionContext) : List RiskFinding :=
  (ctx.functions.filter fun f => reTest callPatternRE f.body).filterMap
    (uncheckedCallFinding ctx)

/-- `DangerousFunctionsDetector.detect`. -/
def detect (ctx : DetectionContext) : List RiskFinding :=
  (detectSelfdestruct ctx).toList ++ detectTxOrigin ctx ++
    detectUncheckedCalls ctx

end DangerousFunctionsDetector

namespace EconomicDetector

open BaseDetector

/-- The five fee-setter name patterns. -/
def feePatterns : List Rex :=
  [litRex "setFee", litRex "setTax", litRex "updateFee", litRex "changeFee",
   litRex "setRate"]

/-- `detectAdjustableFees` (HIGH). -/
def detectAdjustableFees (ctx : DetectionContext) : List RiskFinding :=
  feePatterns.flatMap fun p =>
    (findFunctionsMatching ctx p).filterMap fun func =>
      if hasModifier func "onlyOwner".toList ||
          hasModifier func "onlyRole".toList then
        some (createFinding .ADJUSTABLE_FEES func.fullSignature func.startLine
          "Owner can modify fees/taxes at any time. No caps or timelocks detected. Users may face unexpected costs.".toList
          (some func.name) (some (joinSep ", ".toList func.modifiers)))
      else none

/-- `detectBlacklistModification` (MEDIUM). -/
def detectBlacklistModification (ctx : DetectionContext) : Option RiskFinding :=
  let hasBlacklist := hasVariable ctx "blacklist".toList ||
    hasVariable ctx "blacklisted".toList ||
    hasVariable ctx "_blacklist".toList ||
    (containsStr ctx.code "mapping".toList && containsStr ctx.code "blacklist".toList)
  if !hasBlacklist then none
  else
    let blacklistFunctions := findFunctionsMatching ctx (litRex "blacklist")
    let addFunction := blacklistFunctions.find? fun f =>
      containsStr (lowerStr f.name) "add".toList ||
      containsStr (lowerStr f.name) "set".toList
    match addFunction with
    | some fn =>
      if hasModifier fn "onlyOwner".toList then
        some (createFinding .BLACKLIST_MODIFICATION fn.fullSignature fn.startLine
          "Owner can blacklist addresses, preventing them from transferring tokens or interacting with contract.".toList
          (some fn.name) (some (joinSep ", ".toList fn.modifiers)))
      else none
    | none => none

/-- `detectWhitelistModification` (MEDIUM). -/
def detectWhitelistModification (ctx : DetectionContext) : Option RiskFinding :=
  let hasWhitelist := hasVariable ctx "whitelist".toList ||
    hasVariable ctx "whitelisted".toList ||
    hasVariable ctx "_whitelist".toList ||
    (containsStr ctx.code "mapping".toList && containsStr ctx.code "whitelist".toList)
  if !hasWhitelist then none
  else
    let whitelistFunctions := findFunctionsMatching ctx (litRex "whitelist")
    let addFunction := whitelistFunctions.find? fun f =>
      containsStr (lowerStr f.name) "add".toList ||
      containsStr (lowerStr f.name) "set".toList
    match addFunction with
    | some fn =>
      if hasModifier fn "onlyOwner".toList then
        some (createFinding .WHITELIST_MODIFICATION fn.fullSignature fn.startLine
          "Owner controls whitelist access. Can restrict who can interact with contract.".toList
          (some fn.name) (some (joinSep ", ".toList fn.modifiers)))
      else none
    | none => none

/-- `detectMaxTxLimit` (LOW). -/
def detectMaxTxLimit (ctx : DetectionContext) : Option RiskFinding :=
  let hasMaxTx := hasVariable ctx "maxTransactionAmount".toList ||
    hasVariable ctx "maxTxAmount".toList ||
    hasVariable ctx "_maxTxAmount".toList ||
    hasVariable ctx "maxTx".toList
  if !hasMaxTx then none
  else
    match (findFunctionsMatching ctx setMaxRE).head? with
    | some fn =>
      if hasModifier fn "onlyOwner".toList then
        some (createFinding .MAX_TX_LIMIT fn.fullSignature fn.startLine
          "Owner can modify maximum transaction amount, potentially restricting user transactions.".toList
          (some fn.name) (some (joinSep ", ".toList fn.modifiers)))
      else none
    | none => none

/-- `EconomicDetector.detect`. -/
def detect (ctx : DetectionContext) : List RiskFinding :=
  detectAdjustableFees ctx ++ (detectBlacklistModification ctx).toList ++
    (detectWhitelistModification ctx).toList ++ (detectMaxTxLimit ctx).toList

end EconomicDetector

/-! ## `ScoringAlgorithmService` -/

namespace ScoringAlgorithmService

/-- The weight accumulation `findings.reduce((sum, f) => sum + f.weight, 0)`. -/
def sumWeights (findings : List RiskFinding) : ℚ :=
  findings.foldl (fun s f => s + f.weight) 0

/-- `calculateRiskScore`: `Math.min(10, Math.round(totalWeight * 10) / 10)`. -/
def calculateRiskScore (findings : List RiskFinding) : ℚ :=
  qMin 10 ((jsRound (sumWeights findings * 10) : ℚ) / 10)

/-- `calculateConfidence`. -/
def calculateConfidence (totalFunctions successfullyParsed
    patternsChecked patternsMatched : Nat) : ℚ :=
  if totalFunctions = 0 ∨ patternsChecked = 0 then 1 / 2
  else
    let parsingConfidence : ℚ := (successfullyParsed : ℚ) / (totalFunctions : ℚ)
    let patternConfidence : ℚ := (patternsMatched : ℚ) / (patternsChecked : ℚ)
    let astCompleteness : ℚ :=
      qMin 1 ((successfullyParsed : ℚ) / ((nMax 5 totalFunctions : Nat) : ℚ))
    let confidence := parsingConfidence * (4 / 10) +
      patternConfidence * (3 / 10) + astCompleteness * (3 / 10)
    (jsRound (confidence * 100) : ℚ) / 100

/-- The `severityOrder` ranking of `sortBySeverity`. -/
def severityRank : Severity → Nat
  | .CRITICAL => 0
  | .HIGH => 1
  | .MEDIUM => 2
  | .LOW => 3

/-- Stable insertion: the new element goes after every already placed
element of smaller or equal rank. -/
def insertStable (f : RiskFinding) : List RiskFinding → List RiskFinding
  | [] => [f]
  | g :: gs =>
    if severityRank g.severity ≤ severityRank f.severity then
      g :: insertStable f gs
    else f :: g :: gs

/-- `sortBySeverity`: the stable severity sort of
`[...findings].sort((a, b) => order[a.severity] - order[b.severity])`
(JS `Array.prototype.sort` is stable). -/
def sortBySeverity (findings : List RiskFinding) : List RiskFinding :=
  findings.foldl (fun acc f => insertStable f acc) []

/-- `buildResult`. -/
def buildResult (findings : List RiskFinding) (metadata : DetectionMetadata) :
    RiskDetectionResult :=
  let riskScore := calculateRiskScore findings
  { findings := findings,
    risk_score := riskScore,
    classification := classifyRiskScore riskScore,
    confidence := calculateConfidence metadata.total_functions
      metadata.successfully_parsed metadata.patterns_checked
      metadata.patterns_matched,
    metadata := metadata }

end ScoringAlgorithmService

/-! ## `RiskEngineService` -/

/-- One entry of the engine's detector battery: its `name` getter and its
`detect` method. -/
structure Detector where
  name : List Char
  detect : DetectionContext → List RiskFinding

/-- The fixed battery, in the engine's construction order. -/
def detectorList : List Detector :=
  [⟨"MintingDetector".toList, MintingDetector.detect⟩,
   ⟨"FundControlDetector".toList, FundControlDetector.detect⟩,
   ⟨"OwnershipDetector".toList, OwnershipDetector.detect⟩,
   ⟨"UpgradeDetector".toList, UpgradeDetector.detect⟩,
   ⟨"DangerousFunctionsDetector".toList, DangerousFunctionsDetector.detect⟩,
   ⟨"EconomicDetector".toList, EconomicDetector.detect⟩]

/-- `getPatternCount`: the fixed per-detector pattern estimate. -/
def getPatternCount (name : List Char) : Nat :=
  if name = "MintingDetector".toList then 2
  else if name = "FundControlDetector".toList then 6
  else if name = "OwnershipDetector".toList then 3
  else if name = "UpgradeDetector".toList then 3
  else if name = "DangerousFunctionsDetector".toList then 3
  else if name = "EconomicDetector".toList then 4
  else 1

/-- The concatenated findings of a detector battery (the `allFindings`
accumulator of `analyze`; each Lean detector is total, so the per-detector
`try/catch` of the source has no error branch to model). -/
def runDetectors (ds : List Detector) (ctx : DetectionContext) :
    List RiskFinding :=
  (ds.map fun d => d.detect ctx).flatten

/-- The `patternsChecked` accumulator of `analyze`. -/
def patternsCheckedOf (ds : List Detector) : Nat :=
  (ds.map fun d => getPatternCount d.name).sum

/-- The message of the `Error` thrown on unsupported input. -/
def invalidSolidityMsg : List Char := "Invalid Solidity code".toList

/-- `RiskEngineService.analyze`, parameterized by the detector battery; a
thrown `Error` is an `Except.error`. -/
def analyzeWith (ds : List Detector) (code : List Char) :
    Except (List Char) RiskDetectionResult :=
  if ASTParserService.isValidSolidity code then
    let ctx := ASTParserService.parse code
    let allFindings := runDetectors ds ctx
    let sortedFindings := ScoringAlgorithmService.sortBySeverity allFindings
    .ok (ScoringAlgorithmService.buildResult sortedFindings
      { total_functions := ctx.functions.length,
        successfully_parsed := ctx.functions.length,
        patterns_checked := patternsCheckedOf ds,
        patterns_matched := allFindings.length })
  else .error invalidSolidityMsg

/-- `RiskEngineService.analyze` with the engine's fixed battery. -/
def analyze (code : List Char) : Except (List Char) RiskDetectionResult :=
  analyzeWith detectorList code

instance {ε α : Type} [DecidableEq ε] [DecidableEq α] :
    DecidableEq (Except ε α) := fun a b =>
  match a, b with
  | .error e1, .error e2 =>
    if h : e1 = e2 then .isTrue (by rw [h])
    else .isFalse (by intro hh; cases hh; exact h rfl)
  | .ok r1, .ok r2 =>
    if h : r1 = r2 then .isTrue (by rw [h])
    else .isFalse (by intro hh; cases hh; exact h rfl)
  | .error _, .ok _ => .isFalse (by intro hh; cases hh)
  | .ok _, .error _ => .isFalse (by intro hh; cases hh)

/-! ## Concrete inputs used by the witnesses and counterexamples -/

/-- Scenario A of the specification: a public `mint` with no owner gating,
no supply-cap variable and no in-body supply check. -/
def srcA : List Char :=
  "contract Token \x7b\n    function mint(address to, uint256 amount) public \x7b\n        balances[to] += amount;\n    \x7d\n\x7d\n".toList

/-- A supported source with no functions at all: zero findings. -/
def pragmaSrc : List Char := "pragma solidity ^0.8.0;\n".toList

/-- Plain prose without any of the structural keywords. -/
def proseSrc : List Char :=
  "Just a plain paragraph of text with no code in it.".toList

/-- A source whose five functions each match the mint, withdraw, claim,
rescue, recover, sweep and emergency name patterns at once, are owner
gated and transfer funds: 41 findings against the fixed pattern count
of 21. -/
def confSrc : List Char :=
  ("contract Mega \x7b\n" ++
   "  function mintwithdrawclaimrescuerecoversweepemergencya() public onlyOwner \x7b a.transfer(1); \x7d\n" ++
   "  function mintwithdrawclaimrescuerecoversweepemergencyb() public onlyOwner \x7b a.transfer(1); \x7d\n" ++
   "  function mintwithdrawclaimrescuerecoversweepemergencyc() public onlyOwner \x7b a.transfer(1); \x7d\n" ++
   "  function mintwithdrawclaimrescuerecoversweepemergencyd() public onlyOwner \x7b a.transfer(1); \x7d\n" ++
   "  function mintwithdrawclaimrescuerecoversweepemergencye() public onlyOwner \x7b a.transfer(1); \x7d\n" ++
   "\x7d\n").toList

/-- A source on which two different detectors each emit one CRITICAL
finding: an unguarded `mint` and an owner-gated transferring `withdraw`. -/
def permSrc : List Char :=
  ("contract P \x7b\n" ++
   "  function mint() public \x7b a = 1; \x7d\n" ++
   "  function withdraw() public onlyOwner \x7b msg.sender.transfer(1); \x7d\n" ++
   "\x7d\n").toList

/-- `detectorList` with its first two detectors exchanged. -/
def swappedDetectorList : List Detector :=
  [⟨"FundControlDetector".toList, FundControlDetector.detect⟩,
   ⟨"MintingDetector".toList, MintingDetector.detect⟩,
   ⟨"OwnershipDetector".toList, OwnershipDetector.detect⟩,
   ⟨"UpgradeDetector".toList, UpgradeDetector.detect⟩,
   ⟨"DangerousFunctionsDetector".toList, DangerousFunctionsDetector.detect⟩,
   ⟨"EconomicDetector".toList, EconomicDetector.detect⟩]

/-- A placeholder finding used only to extract elements of computed lists
in witnesses. -/
def blankFinding : RiskFinding :=
  BaseDetector.createFinding .UNLIMITED_MINTING [] 0 [] none none

/-- A structural model holding two owner-gated transferring functions whose
names match distinct withdrawal patterns. -/
def ctxW : DetectionContext where
  code := []
  lines := []
  functions :=
    [{ name := "withdrawA".toList, startLine := 1, endLine := 1,
       visibility := "public".toList, modifiers := ["onlyOwner".toList],
       body := " x.transfer(1); ".toList,
       fullSignature := "function withdrawA() public onlyOwner \x7b".toList },
     { name := "rescueB".toList, startLine := 2, endLine := 2,
       visibility := "public".toList, modifiers := ["onlyOwner".toList],
       body := " x.transfer(2); ".toList,
       fullSignature := "function rescueB() public onlyOwner \x7b".toList }]
  modifiers := []
  «variables» := []

/-- A structural model holding one owner-gated transferring function whose
name matches both the withdraw and the claim pattern. -/
def ctx10 : DetectionContext where
  code := []
  lines := []
  functions :=
    [{ name := "withdrawAndClaim".toList, startLine := 1, endLine := 1,
       visibility := "public".toList, modifiers := ["onlyOwner".toList],
       body := " x.transfer(1); ".toList,
       fullSignature := "function withdrawAndClaim() public onlyOwner \x7b".toList }]
  modifiers := []
  «variables» := []

/-- An empty structural model (the unchecked-call scan only reads the
function that is passed to it). -/
def ctx8 : DetectionContext where
  code := []
  lines := []
  functions := []
  modifiers := []
  «variables» := []

/-- A function with a success-checked low-level call on its first body line
and an unchecked one on its third. -/
def func8 : FunctionInfo where
  name := "forward".toList
  startLine := 5
  endLine := 9
  visibility := "public".toList
  modifiers := []
  body := ("(bool success, ) = a.call\x7bvalue: 1\x7d(\"\");\n" ++
    "require(success, \"fail\");\n" ++
    "b.call(\"\");").toList
  fullSignature := "function forward() public \x7b".toList

/-- The unchecked-call finding the detector emits for `func8`. -/
def func8Finding : RiskFinding :=
  (DangerousFunctionsDetector.uncheckedCallFinding ctx8 func8).getD blankFinding

/-- A code fragment whose brace at index 2 is never closed. -/
def c9code : List Char := "fn\x7bab".toList

/-! ## Helper lemmas: every finding carries the tabulated severity and
weight of its type -/

/-- A finding whose severity and weight are exactly the `RISK_WEIGHTS`
entry of its type. -/
def Tabular (f : RiskFinding) : Prop :=
  f.severity = (RISK_WEIGHTS f.type).2 ∧ f.weight = (RISK_WEIGHTS f.type).1

theorem tabular_createFinding {t s l r fn mn} :
    Tabular (BaseDetector.createFinding t s l r fn mn) := ⟨rfl, rfl⟩

theorem minting_check1_tabular {ctx func f}
    (h : MintingDetector.checkUnlimitedMinting ctx func = some f) : Tabular f := by
  simp only [MintingDetector.checkUnlimitedMinting] at h
  split at h
  · cases h; exact tabular_createFinding
  · cases h

theorem minting_check2_tabular {ctx func f}
    (h : MintingDetector.checkOwnerRestrictedMinting ctx func = some f) :
    Tabular f := by
  simp only [MintingDetector.checkOwnerRestrictedMinting] at h
  split at h
  · cases h; exact tabular_createFinding
  · cases h

theorem minting_tabular {ctx f} (h : f ∈ MintingDetector.detect ctx) :
    Tabular f := by
  unfold MintingDetector.detect at h
  rw [List.mem_flatMap] at h
  obtain ⟨fn, -, h⟩ := h
  rw [List.mem_append, Option.mem_toList, Option.mem_toList] at h
  rcases h with h | h
  · exact minting_check1_tabular h
  · exact minting_check2_tabular h

theorem withdrawal_finding_tabular {func f}
    (h : FundControlDetector.withdrawalFindingFor func = some f) : Tabular f := by
  simp only [FundControlDetector.withdrawalFindingFor] at h
  split at h
  · cases h; exact tabular_createFinding
  · cases h

theorem fund_control_tabular {ctx f} (h : f ∈ FundControlDetector.detect ctx) :
    Tabular f := by
  unfold FundControlDetector.detect at h
  rw [List.mem_append, List.mem_append] at h
  rcases h with (h | h) | h
  · unfold FundControlDetector.detectWithdrawalFunctions at h
    rw [List.mem_flatMap] at h
    obtain ⟨p, -, h⟩ := h
    rw [List.mem_filterMap] at h
    obtain ⟨fn, -, h⟩ := h
    exact withdrawal_finding_tabular h
  · unfold FundControlDetector.detectEmergencyWithdrawal at h
    rw [List.mem_filterMap] at h
    obtain ⟨fn, -, h⟩ := h
    split at h
    · cases h; exact tabular_createFinding
    · cases h
  · unfold FundControlDetector.detectBalanceManipulation at h
    rw [List.mem_filterMap] at h
    obtain ⟨fn, -, h⟩ := h
    split at h
    · cases h; exact tabular_createFinding
    · cases h

theorem ownership_tabular {ctx f} (h : f ∈ OwnershipDetector.detect ctx) :
    Tabular f := by
  unfold OwnershipDetector.detect at h
  rw [List.mem_append, List.mem_append, Option.mem_toList, Option.mem_toList,
    Option.mem_toList] at h
  rcases h with (h | h) | h
  · simp only [OwnershipDetector.detectCentralizedOwnership] at h
    split at h
    · split at h
      · cases h; exact tabular_createFinding
      · cases h
    · cases h
  · simp only [OwnershipDetector.detectPausableContract] at h
    split at h
    · cases h; exact tabular_createFinding
    · cases h
  · simp only [OwnershipDetector.detectOwnershipTransfer] at h
    split at h
    · split at h
      · cases h; exact tabular_createFinding
      · cases h
    · cases h

theorem upgrade_tabular {ctx f} (h : f ∈ UpgradeDetector.detect ctx) :
    Tabular f := by
  unfold UpgradeDetector.detect at h
  rw [List.mem_append, List.mem_append, Option.mem_toList, Option.mem_toList] at h
  rcases h with (h | h) | h
  · unfold UpgradeDetector.detectDelegatecall at h
    rw [List.mem_map] at h
    obtain ⟨fn, -, h⟩ := h
    cases h; exact tabular_createFinding
  · simp only [UpgradeDetector.detectUUPSProxy] at h
    split at h
    · cases h; exact tabular_createFinding
    · cases h
  · simp only [UpgradeDetector.detectTransparentProxy] at h
    split at h
    · cases h; exact tabular_createFinding
    · cases h

theorem unchecked_finding_tabular {ctx func f}
    (h : DangerousFunctionsDetector.uncheckedCallFinding ctx func = some f) :
    Tabular f := by
  unfold DangerousFunctionsDetector.uncheckedCallFinding at h
  split at h
  · cases h; exact tabular_createFinding
  · cases h

theorem dangerous_tabular {ctx f}
    (h : f ∈ DangerousFunctionsDetector.detect ctx) : Tabular f := by
  unfold DangerousFunctionsDetector.detect at h
  rw [List.mem_append, List.mem_append, Option.mem_toList] at h
  rcases h with (h | h) | h
  · simp only [DangerousFunctionsDetector.detectSelfdestruct] at h
    split at h
    · cases h
    · split at h
      · cases h; exact tabular_createFinding
      · cases h
  · simp only [DangerousFunctionsDetector.detectTxOrigin] at h
    split at h
    · cases h
    · rw [List.mem_map] at h
      obtain ⟨fn, -, h⟩ := h
      cases h; exact tabular_createFinding
  · unfold DangerousFunctionsDetector.detectUncheckedCalls at h
    rw [List.mem_filterMap] at h
    obtain ⟨fn, -, h⟩ := h
    exact unchecked_finding_tabular h

theorem economic_tabular {ctx f} (h : f ∈ EconomicDetector.detect ctx) :
    Tabular f := by
  unfold EconomicDetector.detect at h
  rw [List.mem_append, List.mem_append, List.mem_append, Option.mem_toList,
    Option.mem_toList, Option.mem_toList] at h
  rcases h with ((h | h) | h) | h
  · unfold EconomicDetector.detectAdjustableFees at h
    rw [List.mem_flatMap] at h
    obtain ⟨p, -, h⟩ := h
    rw [List.mem_filterMap] at h
    obtain ⟨fn, -, h⟩ := h
    split at h
    · cases h; exact tabular_createFinding
    · cases h
  · simp only [EconomicDetector.detectBlacklistModification] at h
    split at h
    · cases h
    · split at h
      · split at h
        · cases h; exact tabular_createFinding
        · cases h
      · cases h
  · simp only [EconomicDetector.detectWhitelistModification] at h
    split at h
    · cases h
    · split at h
      · split at h
        · cases h; exact tabular_createFinding
        · cases h
      · cases h
  · simp only [EconomicDetector.detectMaxTxLimit] at h
    split at h
    · cases h
    · split at h
      · split at h
        · cases h; exact tabular_createFinding
        · cases h
      · cases h

/-- Every finding of the engine's battery carries the tabulated severity
and weight. -/
theorem runDetectors_tabular {ctx f}
    (h : f ∈ runDetectors detectorList ctx) : Tabular f := by
  unfold runDetectors detectorList at h
  rw [List.mem_flatten] at h
  obtain ⟨l, hl, hf⟩ := h
  simp only [List.map_cons, List.map_nil, List.mem_cons, List.not_mem_nil,
    or_false] at hl
  rcases hl with h1 | h1 | h1 | h1 | h1 | h1 <;> subst h1
  · exact minting_tabular hf
  · exact fund_control_tabular hf
  · exact ownership_tabular hf
  · exact upgrade_tabular hf
  · exact dangerous_tabular hf
  · exact economic_tabular hf

/-- The tabulated weights are all nonnegative. -/
theorem risk_weight_nonneg (t : RiskType) : 0 ≤ (RISK_WEIGHTS t).1 := by
  cases t <;> norm_num [RISK_WEIGHTS]

/-! ## Helper lemmas: sorting, sums, rounding -/

theorem insertStable_perm (f : RiskFinding) (l : List RiskFinding) :
    (ScoringAlgorithmService.insertStable f l).Perm (f :: l) := by
  induction l with
  | nil => rfl
  | cons g gs ih =>
    unfold ScoringAlgorithmService.insertStable
    split
    · exact (ih.cons g).trans (List.Perm.swap f g gs)
    · rfl

theorem sortBySeverity_perm (l : List RiskFinding) :
    (ScoringAlgorithmService.sortBySeverity l).Perm l := by
  have main : ∀ (l acc : List RiskFinding),
      (l.foldl (fun acc f => ScoringAlgorithmService.insertStable f acc) acc).Perm
        (acc ++ l) := by
    intro l
    induction l with
    | nil => intro acc; simp
    | cons x xs ih =>
      intro acc
      refine (ih _).trans ?_
      have h1 : (ScoringAlgorithmService.insertStable x acc ++ xs).Perm
          ((x :: acc) ++ xs) := (insertStable_perm x acc).append_right xs
      refine h1.trans ?_
      simpa using List.perm_middle.symm.append_left []
  simpa using main l []

theorem sumWeights_eq (l : List RiskFinding) :
    ScoringAlgorithmService.sumWeights l = (l.map (fun f => f.weight)).sum := by
  have main : ∀ (l : List RiskFinding) (a : ℚ),
      l.foldl (fun s f => s + f.weight) a = a + (l.map (fun f => f.weight)).sum := by
    intro l
    induction l with
    | nil => intro a; simp
    | cons x xs ih => intro a; simp [ih, add_assoc]
  simpa using main l 0

/-- The sum of the weights of tabulated findings is nonnegative. -/
theorem sumWeights_nonneg {l : List RiskFinding} (h : ∀ f ∈ l, Tabular f) :
    0 ≤ ScoringAlgorithmService.sumWeights l := by
  rw [sumWeights_eq]
  refine List.sum_nonneg ?_
  intro x hx
  rw [List.mem_map] at hx
  obtain ⟨f, hf, rfl⟩ := hx
  rw [(h f hf).2]
  exact risk_weight_nonneg f.type

theorem jsRound_eq_round (q : ℚ) : jsRound q = round q := (round_eq q).symm

theorem jsRound_le_jsRound {a b : ℚ} (h : a ≤ b) : jsRound a ≤ jsRound b :=
  Int.floor_le_floor (by linarith)

theorem jsRound_nonneg {q : ℚ} (h : 0 ≤ q) : 0 ≤ jsRound q := by
  have := jsRound_le_jsRound h
  simpa [jsRound] using this

/-- `calculateRiskScore` of a tabulated finding list lies in `[0, 10]`. -/
theorem calculateRiskScore_bounds {l : List RiskFinding}
    (h : ∀ f ∈ l, Tabular f) :
    0 ≤ ScoringAlgorithmService.calculateRiskScore l ∧
      ScoringAlgorithmService.calculateRiskScore l ≤ 10 := by
  unfold ScoringAlgorithmService.calculateRiskScore
  have hs : 0 ≤ ScoringAlgorithmService.sumWeights l := sumWeights_nonneg h
  have hr : (0 : ℚ) ≤ (jsRound (ScoringAlgorithmService.sumWeights l * 10) : ℚ) / 10 := by
    have : (0 : ℤ) ≤ jsRound (ScoringAlgorithmService.sumWeights l * 10) :=
      jsRound_nonneg (by linarith)
    positivity
  unfold qMin
  split
  · constructor <;> linarith
  · constructor
    · exact hr
    · linarith [not_le.mp (by assumption)]

/-! ## Helper lemmas: the engine -/

/-- Destructuring a successful run of the engine. -/
theorem analyzeWith_ok {ds : List Detector} {code : List Char}
    {r : RiskDetectionResult} (h : analyzeWith ds code = .ok r) :
    ASTParserService.isValidSolidity code = true ∧
    r = ScoringAlgorithmService.buildResult
      (ScoringAlgorithmService.sortBySeverity
        (runDetectors ds (ASTParserService.parse code)))
      { total_functions := (ASTParserService.parse code).functions.length,
        successfully_parsed := (ASTParserService.parse code).functions.length,
        patterns_checked := patternsCheckedOf ds,
        patterns_matched := (runDetectors ds (ASTParserService.parse code)).length } := by
  unfold analyzeWith at h
  split at h
  · refine ⟨by assumption, ?_⟩
    injection h with h
    exact h.symm
  · cases h

/-- The engine's fixed battery reports 21 checked patterns. -/
theorem patternsChecked_detectorList : patternsCheckedOf detectorList = 21 := rfl

/-- A placeholder result used only to extract the value of a successful
analysis in witnesses. -/
def blankResult : RiskDetectionResult :=
  { findings := [], risk_score := 0, classification := .VERY_LOW,
    confidence := 0,
    metadata := { total_functions := 0, successfully_parsed := 0,
                  patterns_checked := 0, patterns_matched := 0 } }

/-- The engine's result on the Scenario A source. -/
def resA : RiskDetectionResult := (analyze srcA).toOption.getD blankResult

/-- The engine's result on the function-free supported source. -/
def resPragma : RiskDetectionResult :=
  (analyze pragmaSrc).toOption.getD blankResult

/-- Projections of `buildResult`. -/
theorem buildResult_findings (l : List RiskFinding) (m : DetectionMetadata) :
    (ScoringAlgorithmService.buildResult l m).findings = l := rfl

/-- See `buildResult_findings`. -/
theorem buildResult_risk (l : List RiskFinding) (m : DetectionMetadata) :
    (ScoringAlgorithmService.buildResult l m).risk_score =
      ScoringAlgorithmService.calculateRiskScore l := rfl

/-- See `buildResult_findings`. -/
theorem buildResult_classification (l : List RiskFinding) (m : DetectionMetadata) :
    (ScoringAlgorithmService.buildResult l m).classification =
      classifyRiskScore (ScoringAlgorithmService.calculateRiskScore l) := rfl

/-- See `buildResult_findings`. -/
theorem buildResult_confidence (l : List RiskFinding) (m : DetectionMetadata) :
    (ScoringAlgorithmService.buildResult l m).confidence =
      ScoringAlgorithmService.calculateConfidence m.total_functions
        m.successfully_parsed m.patterns_checked m.patterns_matched := rfl

/-- See `buildResult_findings`. -/
theorem buildResult_metadata (l : List RiskFinding) (m : DetectionMetadata) :
    (ScoringAlgorithmService.buildResult l m).metadata = m := rfl

/-! ## The claims -/

/-- **C1.**  For every list of findings produced by the analysis, the
result's `risk_score` equals `min(10.0, round(Σ weight_i, 1 decimal))`,
summed across every finding from every detector with no deduplication
(`r.findings` is the severity-sorted concatenation of all detector
outputs, so the sum below ranges over every emitted finding exactly
once), and therefore `risk_score` always lies in `[0, 10]`. -/
theorem c1_risk_score_capped_sum (code : List Char) (r : RiskDetectionResult)
    (h : analyze code = .ok r) :
    r.risk_score =
      qMin 10 ((jsRound ((r.findings.map (fun f => f.weight)).sum * 10) : ℚ) / 10) ∧
    0 ≤ r.risk_score ∧ r.risk_score ≤ 10 := by
  obtain ⟨-, rfl⟩ := analyzeWith_ok h
  have htab : ∀ f ∈ ScoringAlgorithmService.sortBySeverity
      (runDetectors detectorList (ASTParserService.parse code)), Tabular f :=
    fun f hf => runDetectors_tabular ((sortBySeverity_perm _).subset hf)
  refine ⟨?_, ?_⟩
  · rw [buildResult_risk, buildResult_findings]
    unfold ScoringAlgorithmService.calculateRiskScore
    rw [sumWeights_eq]
  · rw [buildResult_risk]
    exact calculateRiskScore_bounds htab

/-- Witness for C1 at the Scenario A source. -/
theorem c1_witness :
    0 ≤ resA.risk_score ∧ resA.risk_score ≤ 10 :=
  (c1_risk_score_capped_sum srcA resA (by decide)).2

/-- **C2.**  The classification is a pure function of `risk_score` through
the fixed thresholds (≤2 → VERY_LOW, ≤4 → LOW, ≤6 → MODERATE, ≤8 → HIGH,
else VERY_HIGH), and an analysis producing zero findings has
`risk_score = 0` and classification VERY_LOW. -/
theorem c2_classification_thresholds :
    (∀ s : ℚ,
      (classifyRiskScore s = .VERY_LOW ↔ s ≤ 2) ∧
      (classifyRiskScore s = .LOW ↔ 2 < s ∧ s ≤ 4) ∧
      (classifyRiskScore s = .MODERATE ↔ 4 < s ∧ s ≤ 6) ∧
      (classifyRiskScore s = .HIGH ↔ 6 < s ∧ s ≤ 8) ∧
      (classifyRiskScore s = .VERY_HIGH ↔ 8 < s)) ∧
    (∀ (code : List Char) (r : RiskDetectionResult), analyze code = .ok r →
      r.classification = classifyRiskScore r.risk_score) ∧
    (∀ (code : List Char) (r : RiskDetectionResult), analyze code = .ok r →
      r.findings = [] → r.risk_score = 0 ∧ r.classification = .VERY_LOW) := by
  refine ⟨?_, ?_, ?_⟩
  case refine_2 =>
    intro code r h
    obtain ⟨-, rfl⟩ := analyzeWith_ok h
    rw [buildResult_classification, buildResult_risk]
  · intro s
    unfold classifyRiskScore
    split_ifs with h1 h2 h3 h4 <;>
      (try simp only [not_le] at h1) <;>
      (try simp only [not_le] at h2) <;>
      (try simp only [not_le] at h3) <;>
      (try simp only [not_le] at h4) <;>
      refine ⟨⟨fun hc => ?_, fun hp => ?_⟩, ⟨fun hc => ?_, fun hp => ?_⟩,
              ⟨fun hc => ?_, fun hp => ?_⟩, ⟨fun hc => ?_, fun hp => ?_⟩,
              ⟨fun hc => ?_, fun hp => ?_⟩⟩ <;>
      first
        | rfl
        | linarith
        | exact absurd hc (by decide)
        | (refine ⟨?_, ?_⟩ <;> linarith)
  · intro code r h hfl
    obtain ⟨-, rfl⟩ := analyzeWith_ok h
    rw [buildResult_findings] at hfl
    rw [buildResult_risk, buildResult_classification, hfl]
    exact ⟨by decide, by decide⟩

/-- Witness for C2: thresholds at a concrete score, and the zero-finding
source `pragma solidity ^0.8.0;`. -/
theorem c2_witness :
    classifyRiskScore 3 = .LOW ∧
    resPragma.classification = classifyRiskScore resPragma.risk_score ∧
    resPragma.risk_score = 0 ∧ resPragma.classification = .VERY_LOW :=
  ⟨(c2_classification_thresholds.1 3).2.1.mpr (by norm_num),
   c2_classification_thresholds.2.1 pragmaSrc resPragma (by decide),
   c2_classification_thresholds.2.2 pragmaSrc resPragma (by decide) (by decide)⟩

/-- **C4.**  Any two findings emitted by the engine's detector battery on
the same structural model that share a `RiskType` share the severity and
weight, because severity and weight are always looked up from the fixed
closed `RISK_WEIGHTS` table keyed by the type. -/
theorem c4_same_type_same_weight (ctx : DetectionContext) (f g : RiskFinding)
    (hf : f ∈ runDetectors detectorList ctx)
    (hg : g ∈ runDetectors detectorList ctx)
    (ht : f.type = g.type) :
    f.severity = g.severity ∧ f.weight = g.weight := by
  obtain ⟨hfs, hfw⟩ := runDetectors_tabular hf
  obtain ⟨hgs, hgw⟩ := runDetectors_tabular hg
  rw [hfs, hgs, hfw, hgw, ht]
  exact ⟨rfl, rfl⟩

/-- The first two findings of the battery on `ctxW`: two distinct
`WITHDRAW_FUNCTION` findings for two different functions. -/
def c4f : RiskFinding := (runDetectors detectorList ctxW).getD 0 blankFinding

/-- See `c4f`. -/
def c4g : RiskFinding := (runDetectors detectorList ctxW).getD 1 blankFinding

/-- Witness for C4: the two withdrawal findings of `ctxW` share severity
and weight. -/
theorem c4_witness : c4f.severity = c4g.severity ∧ c4f.weight = c4g.weight :=
  c4_same_type_same_weight ctxW c4f c4g (by decide) (by decide) (by decide)

/-- When the parse counts equal (the engine always reports
`successfully_parsed = total_functions`) and no more patterns matched than
were checked, the confidence lies in `[0, 1]`. -/
theorem calculateConfidence_bounds (t pc pm : Nat) (hpm : pm ≤ pc) :
    0 ≤ ScoringAlgorithmService.calculateConfidence t t pc pm ∧
      ScoringAlgorithmService.calculateConfidence t t pc pm ≤ 1 := by
  simp only [ScoringAlgorithmService.calculateConfidence]
  split
  · norm_num
  · rename_i hno
    push_neg at hno
    obtain ⟨ht, hpc⟩ := hno
    have htq : (0 : ℚ) < (t : ℚ) := by exact_mod_cast Nat.pos_of_ne_zero ht
    have hpcq : (0 : ℚ) < (pc : ℚ) := by exact_mod_cast Nat.pos_of_ne_zero hpc
    have ha : (t : ℚ) / (t : ℚ) = 1 := div_self (ne_of_gt htq)
    have hb0 : (0 : ℚ) ≤ (pm : ℚ) / (pc : ℚ) :=
      div_nonneg (by positivity) (le_of_lt hpcq)
    have hb1 : (pm : ℚ) / (pc : ℚ) ≤ 1 :=
      (div_le_one hpcq).mpr (by exact_mod_cast hpm)
    have hc0 : (0 : ℚ) ≤ qMin 1 ((t : ℚ) / ((nMax 5 t : Nat) : ℚ)) := by
      unfold qMin; split
      · norm_num
      · positivity
    have hc1 : qMin 1 ((t : ℚ) / ((nMax 5 t : Nat) : ℚ)) ≤ 1 := by
      unfold qMin; split
      · exact le_refl 1
      · rename_i hgt
        linarith [not_le.mp hgt]
    rw [ha]
    set b := (pm : ℚ) / (pc : ℚ) with hbdef
    set c := qMin 1 ((t : ℚ) / ((nMax 5 t : Nat) : ℚ)) with hcdef
    have hlo : (0 : ℚ) ≤ (1 * (4 / 10) + b * (3 / 10) + c * (3 / 10)) * 100 := by
      nlinarith
    have hhi : (1 * (4 / 10) + b * (3 / 10) + c * (3 / 10)) * 100 ≤ 100 := by
      nlinarith
    have hrlo : (0 : ℤ) ≤ jsRound ((1 * (4 / 10) + b * (3 / 10) + c * (3 / 10)) * 100) :=
      jsRound_nonneg hlo
    have hrhi : jsRound ((1 * (4 / 10) + b * (3 / 10) + c * (3 / 10)) * 100) ≤ 100 := by
      have h1 := jsRound_le_jsRound hhi
      have h2 : jsRound (100 : ℚ) = 100 := by norm_num [jsRound]
      omega
    constructor
    · apply div_nonneg _ (by norm_num : (0 : ℚ) ≤ 100)
      exact_mod_cast hrlo
    · rw [div_le_one (by norm_num : (0 : ℚ) < 100)]
      exact_mod_cast hrhi

/-- **C3 (amended).**  The result's confidence equals the embedded
weighted-average formula applied to the result's metadata; it is exactly
`0.5` when `total_functions` or `patterns_checked` is zero; and it lies in
`[0, 1]` whenever `patterns_matched ≤ patterns_checked`.  (The
unconditional `[0, 1]` range of the original claim is false: see the
counterexample, where 41 findings against the fixed pattern count of 21
drive the confidence to 1.29.) -/
theorem c3_confidence_formula (code : List Char) (r : RiskDetectionResult)
    (h : analyze code = .ok r) :
    r.confidence = ScoringAlgorithmService.calculateConfidence
        r.metadata.total_functions r.metadata.successfully_parsed
        r.metadata.patterns_checked r.metadata.patterns_matched ∧
    (r.metadata.total_functions = 0 ∨ r.metadata.patterns_checked = 0 →
      r.confidence = 1 / 2) ∧
    (r.metadata.patterns_matched ≤ r.metadata.patterns_checked →
      0 ≤ r.confidence ∧ r.confidence ≤ 1) := by
  obtain ⟨-, rfl⟩ := analyzeWith_ok h
  rw [buildResult_confidence, buildResult_metadata]
  refine ⟨rfl, ?_, ?_⟩
  · intro h0
    simp only [ScoringAlgorithmService.calculateConfidence]
    rw [if_pos h0]
  · intro hpm
    exact calculateConfidence_bounds _ _ _ hpm

/-- Counterexample to C3 as stated: on `confSrc` the engine returns
`confidence = 1.29 > 1`, because `patterns_matched` (41 findings) exceeds
the fixed `patterns_checked` count of 21. -/
theorem c3_counterexample :
    (analyze confSrc).map (fun r => r.confidence) = .ok (129 / 100) ∧
    ¬((129 : ℚ) / 100 ≤ 1) :=
  ⟨by decide, by norm_num⟩

/-- Witness for C3 at the function-free supported source (zero functions:
neutral confidence `0.5`, inside `[0, 1]`). -/
theorem c3_witness :
    resPragma.confidence = 1 / 2 ∧
    0 ≤ resPragma.confidence ∧ resPragma.confidence ≤ 1 :=
  ⟨(c3_confidence_formula pragmaSrc resPragma (by decide)).2.1 (.inl (by decide)),
   (c3_confidence_formula pragmaSrc resPragma (by decide)).2.2 (by decide)⟩

/-- The sum of weights, and hence the risk score, is invariant under
permutation of the finding list. -/
theorem calculateRiskScore_perm {l1 l2 : List RiskFinding} (h : l1.Perm l2) :
    ScoringAlgorithmService.calculateRiskScore l1 =
      ScoringAlgorithmService.calculateRiskScore l2 := by
  unfold ScoringAlgorithmService.calculateRiskScore
  rw [sumWeights_eq, sumWeights_eq, (h.map fun f => f.weight).sum_eq]

/-- **C5 (amended).**  Running the six detectors in any order yields the
same findings up to order (the same multiset) and the identical
`risk_score`, `classification`, `confidence` and metadata.  (The original
claim — that the final severity-sorted *list* is identical — is false: the
sort is stable, so two equal-severity findings from different detectors
keep the concatenation order of the battery; see the counterexample.) -/
theorem c5_detector_order_multiset (ds : List Detector) (code : List Char)
    (hperm : ds.Perm detectorList) :
    (analyzeWith ds code).map (fun r =>
      ((r.findings : Multiset RiskFinding), r.risk_score, r.classification,
        r.confidence, r.metadata)) =
    (analyze code).map (fun r =>
      ((r.findings : Multiset RiskFinding), r.risk_score, r.classification,
        r.confidence, r.metadata)) := by
  unfold analyze analyzeWith
  by_cases hv : ASTParserService.isValidSolidity code = true
  · rw [if_pos hv, if_pos hv]
    have hrun : (runDetectors ds (ASTParserService.parse code)).Perm
        (runDetectors detectorList (ASTParserService.parse code)) := by
      unfold runDetectors
      exact (hperm.map fun d => d.detect (ASTParserService.parse code)).flatten
    have hsort : (ScoringAlgorithmService.sortBySeverity
        (runDetectors ds (ASTParserService.parse code))).Perm
        (ScoringAlgorithmService.sortBySeverity
          (runDetectors detectorList (ASTParserService.parse code))) :=
      ((sortBySeverity_perm _).trans hrun).trans (sortBySeverity_perm _).symm
    have hpc : patternsCheckedOf ds = patternsCheckedOf detectorList := by
      unfold patternsCheckedOf
      exact (hperm.map fun d => getPatternCount d.name).sum_eq
    have hlen : (runDetectors ds (ASTParserService.parse code)).length =
        (runDetectors detectorList (ASTParserService.parse code)).length :=
      hrun.length_eq
    simp only [Except.map]
    congr 1
    rw [buildResult_findings, buildResult_findings, buildResult_risk,
      buildResult_risk, buildResult_classification, buildResult_classification,
      buildResult_confidence, buildResult_confidence, buildResult_metadata,
      buildResult_metadata]
    rw [hpc, hlen, calculateRiskScore_perm hsort, Multiset.coe_eq_coe.mpr hsort]
  · rw [if_neg hv, if_neg hv]

/-- Counterexample to C5 as stated: on `permSrc`, exchanging the minting
and fund-control detectors exchanges the two CRITICAL findings in the
final sorted list. -/
theorem c5_counterexample :
    (analyzeWith swappedDetectorList permSrc).map
        (fun r => r.findings.map fun f => f.type) ≠
      (analyze permSrc).map (fun r => r.findings.map fun f => f.type) := by
  decide

/-- Witness for C5 (amended) at a concrete transposition of the battery. -/
theorem c5_witness :
    (analyzeWith swappedDetectorList pragmaSrc).map (fun r =>
      ((r.findings : Multiset RiskFinding), r.risk_score, r.classification,
        r.confidence, r.metadata)) =
    (analyze pragmaSrc).map (fun r =>
      ((r.findings : Multiset RiskFinding), r.risk_score, r.classification,
        r.confidence, r.metadata)) :=
  c5_detector_order_multiset swappedDetectorList pragmaSrc
    (by unfold swappedDetectorList detectorList; exact List.Perm.swap _ _ _)

/-- **C6.**  On Scenario A — a public `mint(address,uint256)` with no
owner gating, no supply-cap variable anywhere and no in-body total-supply
check — the analysis produces exactly one finding, of type
`UNLIMITED_MINTING`, severity CRITICAL and weight `3.0`, with
`risk_score = 3.0` and classification LOW. -/
theorem c6_scenario_a :
    (analyze srcA).map (fun r =>
      (r.findings.map fun f => (f.type, f.severity, f.weight),
        r.risk_score, r.classification)) =
    .ok ([(.UNLIMITED_MINTING, .CRITICAL, 3)], 3, .LOW) := by
  decide

/-- **C7 (amended).**  When the supported-source check fails, the engine's
analysis rejects the input with the controlled error
`Invalid Solidity code` — it does not return a result (and therefore
produces no findings), rather than completing with an empty finding list
as the original claim states. -/
theorem c7_unsupported_rejected (code : List Char)
    (h : ASTParserService.isValidSolidity code = false) :
    analyze code = .error invalidSolidityMsg := by
  unfold analyze analyzeWith
  rw [h]
  rfl

/-- Counterexample to C7 as stated: on the empty string the supported-source
check returns false, and the analysis raises the `Invalid Solidity code`
error instead of completing with no findings. -/
theorem c7_counterexample :
    ASTParserService.isValidSolidity [] = false ∧
    analyze [] = .error invalidSolidityMsg :=
  ⟨by decide, by decide⟩

/-- Witness for C7 (amended) on plain prose without structural keywords. -/
theorem c7_witness :
    ASTParserService.isValidSolidity proseSrc = false ∧
    analyze proseSrc = .error invalidSolidityMsg :=
  ⟨by decide, c7_unsupported_rejected proseSrc (by decide)⟩

/-- The scan of `detectUncheckedCalls` only ever reports a line whose
success check failed. -/
theorem firstUncheckedGo_not_checked {allLines l : List (List Char)}
    {i j : Nat}
    (h : DangerousFunctionsDetector.firstUncheckedGo allLines l i = some j) :
    DangerousFunctionsDetector.isCheckedAt allLines j = false := by
  induction l generalizing i with
  | nil => cases h
  | cons line rest ih =>
    unfold DangerousFunctionsDetector.firstUncheckedGo at h
    split at h
    · rename_i hcond
      cases h
      rw [Bool.and_eq_true, Bool.not_eq_eq_eq_not, Bool.not_true] at hcond
      exact hcond.2
    · exact ih h

/-- **C8.**  A low-level call site that is success-checked within the fixed
three-line window is never the site reported by the unchecked-call
detector: any finding the per-function scan emits points at a body line
whose check failed, which a checked line `i` can never be. -/
theorem c8_checked_call_not_flagged (ctx : DetectionContext)
    (func : FunctionInfo) (i : Nat) (f : RiskFinding)
    (hcall : reTest callPatternRE ((splitNl func.body).getD i []) = true)
    (hchecked : DangerousFunctionsDetector.isCheckedAt (splitNl func.body) i = true)
    (hf : DangerousFunctionsDetector.uncheckedCallFinding ctx func = some f) :
    f.line_number ≠ ((func.startLine + i : Nat) : Int) := by
  unfold DangerousFunctionsDetector.uncheckedCallFinding at hf
  split at hf
  · rename_i j hj
    cases hf
    have hne : j ≠ i := by
      intro he
      subst he
      rw [firstUncheckedGo_not_checked hj] at hchecked
      cases hchecked
    show ((func.startLine + j : Nat) : Int) ≠ ((func.startLine + i : Nat) : Int)
    omega
  · cases hf

/-- Witness for C8: `func8` has a checked call on body line 0 and an
unchecked one on body line 2; the emitted finding does not point at
line 0. -/
theorem c8_witness :
    func8Finding.line_number ≠ ((func8.startLine + 0 : Nat) : Int) :=
  c8_checked_call_not_flagged ctx8 func8 0 func8Finding
    (by decide) (by decide) (by decide)

/-- The exit index of the brace scan never passes the end of the scanned
suffix. -/
theorem fmbGo_index_le (l : List Char) (d idx : Nat) :
    (ASTParserService.fmbGo l d idx).2 ≤ idx + l.length := by
  induction l generalizing d idx with
  | nil => simp [ASTParserService.fmbGo]
  | cons c rest ih =>
    unfold ASTParserService.fmbGo
    split
    · simp
    · refine le_trans (ih _ _) ?_
      simp
      omega

/-- `substring` up to the very end of the code is `drop`. -/
theorem jsSubstring_to_end (code : List Char) (a : Int) :
    jsSubstring code a ((code.length : Nat) : Int) = code.drop a.toNat := by
  have hb : clampIdx code.length ((code.length : Nat) : Int) = code.length := by
    unfold clampIdx iMin iMax
    split_ifs <;> omega
  have hle : clampIdx code.length a ≤ code.length := by
    unfold clampIdx iMin iMax
    split_ifs <;> omega
  simp only [jsSubstring, hb, if_pos hle, sliceN, List.take_length]
  by_cases hcase : a.toNat ≤ code.length
  · have hval : clampIdx code.length a = a.toNat := by
      unfold clampIdx iMin iMax
      split_ifs <;> omega
    rw [hval]
  · have hval : clampIdx code.length a = code.length := by
      unfold clampIdx iMin iMax
      split_ifs <;> omega
    rw [hval, List.drop_length, List.drop_eq_nil_of_le (by omega)]

/-- **C9.**  `findMatchingBrace` never exceeds the code length, and when
the scan exits with nonzero depth — no matching close brace before
end-of-text — it returns exactly `code.length`, so the recorded body
`substring(openIndex + 1, bodyEnd)` is everything to the end of the text.
`parse` returns a structural model for every input string: it and both
extractors are total Lean functions built from total string and regex
operations, mirroring that no path of the parser throws. -/
theorem c9_unmatched_brace_runs_to_end (code : List Char) (openIndex : Int) :
    (ASTParserService.parse code).code = code ∧
    ASTParserService.findMatchingBrace code openIndex ≤ code.length ∧
    ((ASTParserService.fmbScan code openIndex).1 ≠ 0 →
      ASTParserService.findMatchingBrace code openIndex = code.length ∧
      jsSubstring code (openIndex + 1)
          ((ASTParserService.findMatchingBrace code openIndex : Nat) : Int) =
        code.drop (openIndex + 1).toNat) := by
  refine ⟨rfl, ?_, ?_⟩
  · simp only [ASTParserService.findMatchingBrace]
    split
    · rename_i hzero
      by_cases hn : (openIndex + 1).toNat ≤ code.length
      · have hb := fmbGo_index_le (code.drop (openIndex + 1).toNat) 1
          (openIndex + 1).toNat
        rw [List.length_drop] at hb
        unfold ASTParserService.fmbScan
        omega
      · exfalso
        have hdrop : code.drop (openIndex + 1).toNat = [] :=
          List.drop_eq_nil_of_le (by omega)
        unfold ASTParserService.fmbScan at hzero
        rw [hdrop] at hzero
        cases hzero
    · exact le_refl _
  · intro hne
    have hfmb : ASTParserService.findMatchingBrace code openIndex = code.length := by
      simp only [ASTParserService.findMatchingBrace]
      rw [if_neg hne]
    refine ⟨hfmb, ?_⟩
    rw [hfmb]
    exact jsSubstring_to_end code (openIndex + 1)

/-- Witness for C9 on `fn{ab`, whose brace at index 2 is never closed. -/
theorem c9_witness :
    (ASTParserService.parse c9code).code = c9code ∧
    ASTParserService.findMatchingBrace c9code 2 ≤ c9code.length ∧
    (ASTParserService.findMatchingBrace c9code 2 = c9code.length ∧
      jsSubstring c9code ((2 : Int) + 1)
          ((ASTParserService.findMatchingBrace c9code 2 : Nat) : Int) =
        c9code.drop ((2 : Int) + 1).toNat) :=
  ⟨(c9_unmatched_brace_runs_to_end c9code 2).1,
   (c9_unmatched_brace_runs_to_end c9code 2).2.1,
   (c9_unmatched_brace_runs_to_end c9code 2).2.2 (by decide)⟩

/-- Length of a `filterMap` whose function is a guarded `some`. -/
theorem length_filterMap_ite {α β : Type} (g : α → β) (p : α → Bool)
    (l : List α) :
    (l.filterMap fun a => if p a then some (g a) else none).length =
      (l.filter p).length := by
  induction l with
  | nil => rfl
  | cons x xs ih =>
    by_cases hx : p x = true <;>
      simp [List.filterMap_cons, List.filter_cons, hx, ih]

/-- **C10.**  Every finding of `detectWithdrawalFunctions` is a
`WITHDRAW_FUNCTION` finding of severity CRITICAL and weight `3.0`, and the
detector emits exactly one such finding per (pattern, qualifying function)
pair: a qualifying function whose name matches several of the five
withdrawal patterns yields one duplicate finding per matching pattern,
each adding `3.0` to the weight sum. -/
theorem c10_duplicate_withdraw_findings (ctx : DetectionContext)
    (f : RiskFinding)
    (hf : f ∈ FundControlDetector.detectWithdrawalFunctions ctx) :
    (f.type = .WITHDRAW_FUNCTION ∧ f.severity = .CRITICAL ∧ f.weight = 3) ∧
    (FundControlDetector.detectWithdrawalFunctions ctx).length =
      (FundControlDetector.withdrawPatterns.map fun p =>
        ((ctx.functions.filter fun fn => reTest p fn.name).filter
          FundControlDetector.qualifiesWithdrawal).length).sum := by
  constructor
  · unfold FundControlDetector.detectWithdrawalFunctions at hf
    rw [List.mem_flatMap] at hf
    obtain ⟨p, -, hf⟩ := hf
    rw [List.mem_filterMap] at hf
    obtain ⟨fn, -, hf⟩ := hf
    unfold FundControlDetector.withdrawalFindingFor at hf
    split at hf
    · cases hf
      exact ⟨rfl, rfl, rfl⟩
    · cases hf
  · unfold FundControlDetector.detectWithdrawalFunctions
      FundControlDetector.withdrawalFindingFor BaseDetector.findFunctionsMatching
    rw [List.length_flatMap]
    congr 1
    refine List.map_congr_left fun p _ => ?_
    exact length_filterMap_ite _ _ _

/-- The finding that `detectWithdrawalFunctions` emits on `ctx10`. -/
def c10f : RiskFinding :=
  (FundControlDetector.detectWithdrawalFunctions ctx10).getD 0 blankFinding

/-- Witness for C10: the single function of `ctx10` matches both the
withdraw and the claim patterns, producing two findings of weight `3.0`. -/
theorem c10_witness :
    (c10f.type = .WITHDRAW_FUNCTION ∧ c10f.severity = .CRITICAL ∧
      c10f.weight = 3) ∧
    (FundControlDetector.detectWithdrawalFunctions ctx10).length = 2 :=
  ⟨(c10_duplicate_withdraw_findings ctx10 c10f (by decide)).1, by decide⟩

end Contracter
